import Mathlib

/-!
Shallow embedding of the PDF layout engine of `src/lib/pdf.js`
(class `PDFGenerator`, plus `generateFilename`) together with the
configuration constants it reads from `src/config/org.js` and
`src/lib/image.js`.

Modelling conventions:
* JS numbers become `ℚ` (the arithmetic the layout engine performs is
  exact on the rationals it manipulates).
* The pdf-lib font metric `font.widthOfTextAtSize` is an external
  collaborator; it is modelled as an explicit function parameter
  `widthAt : String → ℚ → ℚ`.
* Image byte buffers are an abstract type `Img`; pdf-lib's fallible
  decoders `embedJpg` / `embedPng` become parameters
  `Img → Option Dims` (`none` = the decoder throws).
* The mutable generator object becomes an explicit `LayoutState`
  (page count, vertical cursor, and a log of the primitive
  `drawText` / `drawImage` / `drawLine` / `drawRectangle` calls,
  each tagged with the index of the page it lands on).
* JS exceptions become `Except Unit`.
-/

namespace PDF

/-- Page dimensions (US Letter), `src/unnamed/part_000` lines 13-14. -/
def PAGE_WIDTH : ℚ := 612

/-- Page height in points. -/
def PAGE_HEIGHT : ℚ := 792

/-- The four margins from `ORG_CONFIG.pdf.margins` (`src/config/org.js`). -/
structure Margins where
  top : ℚ
  bottom : ℚ
  left : ℚ
  right : ℚ
deriving Repr, DecidableEq

/-- Margins from `ORG_CONFIG.pdf.margins` : all four are 50 points. -/
def margins : Margins := ⟨50, 50, 50, 50⟩

/-- Value of `this.contentWidth = PAGE_WIDTH - margins.left - margins.right`. -/
def contentWidth : ℚ := PAGE_WIDTH - margins.left - margins.right

/-- Font size `ORG_CONFIG.pdf.fonts.title`. -/
def fonts_title : ℚ := 20

/-- Font size `ORG_CONFIG.pdf.fonts.heading`. -/
def fonts_heading : ℚ := 14

/-- Font size `ORG_CONFIG.pdf.fonts.subheading`. -/
def fonts_subheading : ℚ := 12

/-- Font size `ORG_CONFIG.pdf.fonts.body`. -/
def fonts_body : ℚ := 10

/-- Constant `IMAGE_CONFIG.width` (`src/lib/image.js`). -/
def IMAGE_CONFIG_width : ℚ := 1600

/-- Constant `IMAGE_CONFIG.height` (`src/lib/image.js`). -/
def IMAGE_CONFIG_height : ℚ := 900

/-- Address lines `ORG_CONFIG.address` (three lines). -/
def ORG_CONFIG_address : List String :=
  ["1701 Pennsylvania Avenue NW", "Suite 200", "Washington, DC 20006"]

/-- Decoded pixel dimensions of an embedded image (pdf-lib's
`image.width` / `image.height`). -/
structure Dims where
  width : ℚ
  height : ℚ
deriving Repr, DecidableEq

/-- One primitive draw call issued to the current page, tagged with the
index of the page it lands on.  Image draws also record the size they
were drawn at. -/
inductive DrawCmd where
  | text (page : ℕ)
  | image (page : ℕ) (width height : ℚ)
  | line (page : ℕ)
  | rect (page : ℕ)
deriving Repr, DecidableEq

/-- The page index a draw command landed on. -/
def DrawCmd.page : DrawCmd → ℕ
  | .text p => p
  | .image p _ _ => p
  | .line p => p
  | .rect p => p

/-- The mutable state of a `PDFGenerator` instance that the layout
logic reads and writes: the number of pages added so far, the running
vertical cursor `this.currentY`, and the log of primitive draws. -/
structure LayoutState where
  numPages : ℕ
  currentY : ℚ
  draws : List DrawCmd
deriving Repr, DecidableEq

/-- Method `addNewPage()` : append a page, reset the cursor to
`PAGE_HEIGHT - margins.top` (lines 77-81). -/
def addNewPage (s : LayoutState) : LayoutState :=
  { numPages := s.numPages + 1
    currentY := PAGE_HEIGHT - margins.top
    draws := s.draws }

/-- Method `addPageIfNeeded(neededHeight)` (lines 88-94): if
`currentY - neededHeight < margins.bottom`, add a new page and return
`true`; otherwise return `false` and change nothing. -/
def addPageIfNeeded (s : LayoutState) (neededHeight : ℚ) : LayoutState × Bool :=
  if s.currentY - neededHeight < margins.bottom then
    (addNewPage s, true)
  else
    (s, false)

/-- Method `addSpace(space)` (lines 353-355): `this.currentY -= space`, with no
page check. -/
def addSpace (s : LayoutState) (space : ℚ) : LayoutState :=
  { s with currentY := s.currentY - space }

/-- A `currentPage.drawText(...)` call: log it on the current page
(the current page is always the last one, index `numPages - 1`). -/
def recordText (s : LayoutState) : LayoutState :=
  { s with draws := s.draws ++ [DrawCmd.text (s.numPages - 1)] }

/-- A `currentPage.drawImage(...)` call at a given size. -/
def recordImage (s : LayoutState) (w h : ℚ) : LayoutState :=
  { s with draws := s.draws ++ [DrawCmd.image (s.numPages - 1) w h] }

/-- A `currentPage.drawLine(...)` call. -/
def recordLine (s : LayoutState) : LayoutState :=
  { s with draws := s.draws ++ [DrawCmd.line (s.numPages - 1)] }

/-- A `currentPage.drawRectangle(...)` call. -/
def recordRect (s : LayoutState) : LayoutState :=
  { s with draws := s.draws ++ [DrawCmd.rect (s.numPages - 1)] }

/-- The state after `init()` : a fresh document with its first page
(`init` ends in `this.addNewPage()`). -/
def initState : LayoutState := addNewPage ⟨0, 0, []⟩

/-! ### JS string helpers

`text.split(/\s+/)`, `str.trim()` and friends, with JavaScript
semantics (a leading/trailing whitespace run yields an empty token at
the corresponding end; interior runs are single separators). -/

/-- Worker for `split(/\s+/)` : walk the characters, `prevWs` records
whether we are inside a whitespace run, `acc` is the reversed current
token. -/
def splitWsAux : List Char → Bool → List Char → List (List Char)
  | [], _, acc => [acc.reverse]
  | c :: rest, prevWs, acc =>
    if c.isWhitespace then
      if prevWs then splitWsAux rest true acc
      else acc.reverse :: splitWsAux rest true []
    else splitWsAux rest false (c :: acc)

/-- Model of JS `text.split` on whitespace runs. -/
def jsSplitWs (t : String) : List String :=
  (splitWsAux t.toList false []).map String.mk

/-- Model of JS `str.trim()` : strip whitespace from both ends. -/
def jsTrim (t : String) : String :=
  String.mk (((t.toList.dropWhile Char.isWhitespace).reverse.dropWhile
    Char.isWhitespace).reverse)

/-! ### Word wrap (`drawWrappedText`, lines 115-133) -/

/-- One iteration of the line-breaking loop of `drawWrappedText`
(lines 120-130).  The accumulator is `(lines, currentLine)`; JS
truthiness of `currentLine` is `currentLine ≠ ""`. -/
def wrapStep (widthOf : String → ℚ) (maxWidth : ℚ)
    (acc : List String × String) (word : String) : List String × String :=
  let testLine := if acc.2 = "" then word else acc.2 ++ " " ++ word
  let testWidth := widthOf testLine
  if testWidth > maxWidth ∧ acc.2 ≠ "" then
    (acc.1 ++ [acc.2], word)
  else
    (acc.1, testLine)

/-- The full line-breaking pass of `drawWrappedText` (lines 115-133):
fold `wrapStep` over the words, then push the final `currentLine` if
it is nonempty. -/
def wrapLines (widthOf : String → ℚ) (maxWidth : ℚ)
    (words : List String) : List String :=
  let r := words.foldl (wrapStep widthOf maxWidth) ([], "")
  if r.2 ≠ "" then r.1 ++ [r.2] else r.1

/-! ### Drawing operations

`widthAt` / `widthAtBold` model `this.font.widthOfTextAtSize` and
`this.fontBold.widthOfTextAtSize`; `embedJpg` / `embedPng` model the
fallible pdf-lib decoders.  Horizontal positions (`x`, alignment,
`valueX`, grid column offsets) do not influence the layout state and
are not tracked. -/

variable {Img : Type}

/-- The orphan check of `drawWrappedText` (lines 139-148): if the block
does not fit and fewer than 2 lines fit on the remaining space, start a
fresh page. -/
def orphanBreak (s : LayoutState) (totalHeight actualLineHeight : ℚ) : LayoutState :=
  if s.currentY - totalHeight < margins.bottom then
    let availableHeight := s.currentY - margins.bottom
    let linesOnCurrentPage := ⌊availableHeight / actualLineHeight⌋
    if linesOnCurrentPage < 2 then addNewPage s else s
  else s

/-- Drawing one line in `drawWrappedText` (lines 151-175): page-check for
one line height, draw it, advance the cursor. -/
def drawLinesStep (actualLineHeight : ℚ) (s : LayoutState) : LayoutState :=
  let s := if s.currentY - actualLineHeight < margins.bottom then addNewPage s else s
  let s := recordText s
  { s with currentY := s.currentY - actualLineHeight }

/-- The per-line drawing loop of `drawWrappedText`. -/
def drawLinesLoop (lines : List String) (actualLineHeight : ℚ)
    (s : LayoutState) : LayoutState :=
  lines.foldl (fun s _ => drawLinesStep actualLineHeight s) s

/-- Method `drawWrappedText(text, x, maxWidth, options)` (lines 104-178).
`fontSize` and `lineHeight` are the style options that affect layout
(defaults at the call sites: `fonts.body` and `1.3`).  Returns the new
state and the returned `totalHeight`. -/
def drawWrappedText (widthAt : String → ℚ → ℚ) (s : LayoutState) (text : String)
    (x maxWidth fontSize lineHeight : ℚ) : LayoutState × ℚ :=
  if text = "" ∨ jsTrim text = "" then (s, 0)
  else
    let words := jsSplitWs text
    let lines := wrapLines (fun t => widthAt t fontSize) maxWidth words
    let actualLineHeight := fontSize * lineHeight
    let totalHeight := (lines.length : ℚ) * actualLineHeight
    let s := orphanBreak s totalHeight actualLineHeight
    (drawLinesLoop lines actualLineHeight s, totalHeight)

/-- Method `drawHeading(text, level)` (lines 185-204). -/
def drawHeading (s : LayoutState) (text : String) (level : ℕ) : LayoutState :=
  let fontSize := if level = 1 then fonts_heading else fonts_subheading
  let spaceAbove : ℚ := if level = 1 then 20 else 15
  let spaceBelow : ℚ := if level = 1 then 10 else 8
  let s := (addPageIfNeeded s (spaceAbove + fontSize + spaceBelow)).1
  let s := { s with currentY := s.currentY - spaceAbove }
  let s := recordText s
  { s with currentY := s.currentY - (fontSize + spaceBelow) }

/-- Method `drawField(label, value)` (lines 211-246). -/
def drawField (widthAt widthAtBold : String → ℚ → ℚ) (s : LayoutState)
    (label value : String) : LayoutState :=
  let labelWidth := widthAtBold (label ++ ": ") fonts_body
  let lineHeight := fonts_body * 1.4
  let s := (addPageIfNeeded s lineHeight).1
  let s := recordText s
  let valueMaxWidth := contentWidth - labelWidth
  let valueWidth := widthAt value fonts_body
  if valueWidth ≤ valueMaxWidth then
    let s := recordText s
    { s with currentY := s.currentY - lineHeight }
  else
    let s := { s with currentY := s.currentY - lineHeight }
    (drawWrappedText widthAt s value (margins.left + 20) (contentWidth - 20)
      fonts_body 1.3).1

/-- The size computation of `drawImage` (lines 258-266): width-first,
then clamp to `maxHeight` re-deriving the width.  The `mh ≠ 0` guard
models JS truthiness of `if (maxHeight && drawHeight > maxHeight)`. -/
def imageDrawSize (dims : Dims) (maxWidth : ℚ) (maxHeight : Option ℚ) : ℚ × ℚ :=
  let aspectRatio := dims.width / dims.height
  let drawWidth := maxWidth
  let drawHeight := drawWidth / aspectRatio
  match maxHeight with
  | some mh =>
    if mh ≠ 0 ∧ drawHeight > mh then (mh * aspectRatio, mh) else (drawWidth, drawHeight)
  | none => (drawWidth, drawHeight)

/-- Method `drawImage(imageBytes, maxWidth, maxHeight)` (lines 255-283).  A
decode failure of `embedJpg` propagates as an error. -/
def drawImage (embedJpg : Img → Option Dims) (s : LayoutState) (imageBytes : Img)
    (maxWidth : ℚ) (maxHeight : Option ℚ) : Except Unit (LayoutState × ℚ) :=
  match embedJpg imageBytes with
  | none => .error ()
  | some jpgImage =>
    let (drawWidth, drawHeight) := imageDrawSize jpgImage maxWidth maxHeight
    let s := (addPageIfNeeded s (drawHeight + 10)).1
    let s := recordImage s drawWidth drawHeight
    let s := { s with currentY := s.currentY - (drawHeight + 10) }
    .ok (s, drawHeight + 10)

/-- The inner loop of a row draw in `drawImageGrid` (lines 313-323):
embed and draw each image of the row at the shared cell size, without
moving the cursor. -/
def drawRowImages (embedJpg : Img → Option Dims) (iw ih : ℚ)
    (s : LayoutState) : List Img → Except Unit LayoutState
  | [] => .ok s
  | img :: rest =>
    match embedJpg img with
    | none => .error ()
    | some _ => drawRowImages embedJpg iw ih (recordImage s iw ih) rest

/-- The main loop of `drawImageGrid` (lines 297-329): accumulate
`rowImages`; once `col` reaches `columns` or the last image is reached,
page-check one row height, draw the row, advance the cursor by
`imageHeight + gap`. -/
def gridLoop (embedJpg : Img → Option Dims) (columns : ℕ) (iw ih gap : ℚ)
    (s : LayoutState) : List Img → ℕ → List Img → Except Unit LayoutState
  | [], _, _ => .ok s
  | img :: rest, col, rowImages =>
    let rowImages := rowImages ++ [img]
    let col := col + 1
    if col = columns ∨ rest.isEmpty then
      let rowHeight := ih + gap
      let s1 := (addPageIfNeeded s rowHeight).1
      match drawRowImages embedJpg iw ih s1 rowImages with
      | .error e => .error e
      | .ok s2 => gridLoop embedJpg columns iw ih gap
          { s2 with currentY := s2.currentY - rowHeight } rest 0 []
    else
      gridLoop embedJpg columns iw ih gap s rest col rowImages

/-- Method `drawImageGrid(images, columns, gap)` (lines 291-330). -/
def drawImageGrid (embedJpg : Img → Option Dims) (s : LayoutState)
    (images : List Img) (columns : ℕ) (gap : ℚ) : Except Unit LayoutState :=
  if images.length = 0 then .ok s
  else
    let imageWidth := (contentWidth - gap * ((columns : ℚ) - 1)) / (columns : ℚ)
    let imageHeight := imageWidth / (IMAGE_CONFIG_width / IMAGE_CONFIG_height)
    gridLoop embedJpg columns imageWidth imageHeight gap s images 0 []

/-- Method `drawLine()` (lines 335-347). -/
def drawLine (s : LayoutState) : LayoutState :=
  let s := (addPageIfNeeded s 15).1
  let s := { s with currentY := s.currentY - 5 }
  let s := recordLine s
  { s with currentY := s.currentY - 10 }

/-- The logo drawing inside `drawOrgHeader` (lines 375-392): size the
logo width-first into a 150×60 box, draw it without moving the
cursor. -/
def drawLogo (s : LayoutState) (logoImage : Dims) : LayoutState :=
  let logoAspect := logoImage.width / logoImage.height
  let logoWidth : ℚ := 150
  let logoHeight := logoWidth / logoAspect
  if logoHeight > 60 then recordImage s ((60 : ℚ) * logoAspect) 60
  else recordImage s logoWidth logoHeight

/-- Method `drawOrgHeader(logoBytes)` (lines 361-438): try `embedPng`, fall
back to `embedJpg`, and on a second failure continue without the logo
(the `catch` swallows the error).  Then the name, address lines and
website are drawn (they only move the local `textY`), the cursor drops
by `headerHeight = 80`, and a rule is drawn. -/
def drawOrgHeader (embedPng embedJpg : Img → Option Dims) (s : LayoutState)
    (logoBytes : Option Img) : LayoutState :=
  let s :=
    match logoBytes with
    | none => s
    | some logo =>
      match embedPng logo with
      | some logoImage => drawLogo s logoImage
      | none =>
        match embedJpg logo with
        | some logoImage => drawLogo s logoImage
        | none => s
  let s := recordText s
  let s := ORG_CONFIG_address.foldl (fun s _ => recordText s) s
  let s := recordText s
  let s := { s with currentY := s.currentY - 80 }
  drawLine s

/-- Method `drawTitle(title)` (lines 444-459). -/
def drawTitle (s : LayoutState) (title : String) : LayoutState :=
  let s := addSpace s 10
  let s := recordText s
  { s with currentY := s.currentY - (fonts_title + 20) }

/-- A distribution category (`{label, percent}`). -/
structure Category where
  label : String
  percent : ℚ
deriving Repr, DecidableEq

/-- Method `drawDistributionTable(categories)` (lines 465-517): two-column
rows, zero-percent categories skipped, each entry page-checked, the
cursor advanced per completed pair (plus once more for a trailing odd
entry), ending in `addSpace(10)`. -/
def drawDistributionTable (s : LayoutState) (categories : List Category) : LayoutState :=
  let s := drawHeading s "Student Distribution" 2
  let rowHeight : ℚ := 20
  let r := categories.foldl
    (fun (acc : LayoutState × ℕ) cat =>
      let (s, col) := acc
      if cat.percent = (0 : ℚ) then (s, col)
      else
        let s := if s.currentY - rowHeight < margins.bottom then addNewPage s else s
        let s := recordText s
        let s := recordRect s
        let col := col + 1
        if col = 2 then ({ s with currentY := s.currentY - rowHeight }, 0)
        else (s, col))
    (s, 0)
  let s := if r.2 ≠ 0 then { r.1 with currentY := r.1.currentY - rowHeight } else r.1
  addSpace s 10

/-- The activity record consumed by `drawActivity`. -/
structure Activity (Img : Type) where
  date : String
  location : String
  participants : String
  typeIndex : ℕ
  medium : String
  mediumOther : String
  foreignCountry : String
  foreignSchoolName : String
  foreignSchoolAddress : String
  description : String
  impact : String
  photos : List Img

/-- Method `drawActivity(activity, index, config)` (lines 525-602).  The
`config` parameter of the source is never read by the body and is
omitted.  Starts with an unconditional `addNewPage`, ends with
`drawLine`. -/
def drawActivity (widthAt widthAtBold : String → ℚ → ℚ)
    (embedJpg : Img → Option Dims) (s : LayoutState)
    (activity : Activity Img) (index : ℕ) : Except Unit LayoutState :=
  let s := addNewPage s
  let s := drawHeading s ("Activity #" ++ toString index) 1
  let s := drawField widthAt widthAtBold s "Date" activity.date
  let s := drawField widthAt widthAtBold s "Location" activity.location
  let s := drawField widthAt widthAtBold s "Participants" activity.participants
  let s :=
    if activity.typeIndex = 1 then
      let mediumDisplay :=
        if activity.medium = "Other" then "Other: " ++ activity.mediumOther
        else activity.medium
      let s := drawField widthAt widthAtBold s "Communication Medium" mediumDisplay
      let s := drawField widthAt widthAtBold s "Foreign Country" activity.foreignCountry
      let s := drawField widthAt widthAtBold s "Foreign School" activity.foreignSchoolName
      drawField widthAt widthAtBold s "School Address" activity.foreignSchoolAddress
    else s
  let s := addSpace s 10
  let s := recordText s
  let s := { s with currentY := s.currentY - fonts_body * 1.5 }
  let s := (drawWrappedText widthAt s activity.description (margins.left + 10)
    (contentWidth - 10) fonts_body 1.3).1
  let s := addSpace s 10
  let s := recordText s
  let s := { s with currentY := s.currentY - fonts_body * 1.5 }
  let s := (drawWrappedText widthAt s activity.impact (margins.left + 10)
    (contentWidth - 10) fonts_body 1.3).1
  let s := addSpace s 15
  let gridRes : Except Unit LayoutState :=
    if activity.photos.length > 0 then
      let s := recordText s
      let s := { s with currentY := s.currentY - (fonts_body * 1.5 + 5) }
      let columns := if activity.photos.length ≤ 2 then 1 else 2
      drawImageGrid embedJpg s activity.photos columns 10
    else .ok s
  match gridRes with
  | .error e => .error e
  | .ok s => .ok (drawLine s)

/-- The report record consumed by `generate` (fields the layout engine
reads). -/
structure Report (Img : Type) where
  schoolYear : String
  instructorName : String
  sevisId : String
  schoolType : String
  headerPhoto : Option Img
  distribution : Option (List Category)
  activities : List (Activity Img)

/-- The activities loop at the end of `generate` (lines 660-665):
activity `i` is drawn with index `i + 1`. -/
def activitiesLoop (widthAt widthAtBold : String → ℚ → ℚ)
    (embedJpg : Img → Option Dims) (s : LayoutState) :
    List (Activity Img) → ℕ → Except Unit LayoutState
  | [], _ => .ok s
  | a :: rest, index =>
    match drawActivity widthAt widthAtBold embedJpg s a index with
    | .error e => .error e
    | .ok s1 => activitiesLoop widthAt widthAtBold embedJpg s1 rest (index + 1)

/-- Method `generate(report, onProgress)` (lines 610-671).  The outcome of the
best-effort banner fetch is the `headerImageBytes` parameter (`none`
models a failed or non-ok fetch, which the source swallows); a decode
failure of a fetched banner, the header photo, or any activity photo
propagates.  The progress callback has no layout effect. -/
def generate (widthAt widthAtBold : String → ℚ → ℚ)
    (embedJpg : Img → Option Dims) (headerImageBytes : Option Img)
    (report : Report Img) : Except Unit LayoutState :=
  let s := initState
  let step1 : Except Unit LayoutState :=
    match headerImageBytes with
    | some b =>
      match drawImage embedJpg s b contentWidth (some 150) with
      | .error e => .error e
      | .ok (s1, _) => .ok (addSpace s1 10)
    | none => .ok s
  match step1 with
  | .error e => .error e
  | .ok s =>
    let s := drawTitle s "Cultural Activities Annual Report"
    let step2 : Except Unit LayoutState :=
      match report.headerPhoto with
      | some b =>
        match drawImage embedJpg s b contentWidth (some 250) with
        | .error e => .error e
        | .ok (s1, _) => .ok s1
      | none => .ok s
    match step2 with
    | .error e => .error e
    | .ok s =>
      let s := addSpace s 10
      let s := drawHeading s "General Information" 2
      let s := drawField widthAt widthAtBold s "School Year" report.schoolYear
      let s := drawField widthAt widthAtBold s "Instructor Name" report.instructorName
      let s := drawField widthAt widthAtBold s "SEVIS ID" report.sevisId
      let s := drawField widthAt widthAtBold s "School Type" report.schoolType
      let s := addSpace s 15
      let s :=
        match report.distribution with
        | some categories => drawDistributionTable s categories
        | none => s
      activitiesLoop widthAt widthAtBold embedJpg s report.activities 1

/-! ### `generateFilename` (lines 691-703) -/

/-- Characters kept by the sanitizer character class `[a-zA-Z0-9-_]`. -/
def allowedChar (c : Char) : Bool :=
  (('a' ≤ c) && (c ≤ 'z')) || (('A' ≤ c) && (c ≤ 'Z')) ||
    (('0' ≤ c) && (c ≤ '9')) || (c == '-') || (c == '_')

/-- Step `str.replace` with the class outside `[a-zA-Z0-9-_]` mapped to an underscore. -/
def replaceDisallowed (l : List Char) : List Char :=
  l.map (fun c => if allowedChar c then c else '_')

/-- Worker for `str.replace(/_+/g, '_')` : `prevUnd` records whether we
are inside an underscore run. -/
def collapseAux : List Char → Bool → List Char
  | [], _ => []
  | c :: rest, prevUnd =>
    if c = '_' then
      if prevUnd then collapseAux rest true
      else '_' :: collapseAux rest true
    else c :: collapseAux rest false

/-- Step `str.replace` collapsing each run of underscores to one. -/
def collapseUnderscores (l : List Char) : List Char :=
  collapseAux l false

/-- The `sanitize` closure of `generateFilename` (line 697). -/
def sanitize (str : String) : String :=
  String.mk (collapseUnderscores (replaceDisallowed str.toList))

/-- Function `generateFilename(schoolYear, instructorName)` (lines 691-703). -/
def generateFilename (schoolYear instructorName : String) : String :=
  let nameParts := jsSplitWs (jsTrim instructorName)
  let lastName :=
    match nameParts.getLast? with
    | some w => if w = "" then "Unknown" else w
    | none => "Unknown"
  let sanitizedYear := sanitize schoolYear
  let sanitizedName := sanitize lastName
  "Cultural_Activities_Report_" ++ sanitizedYear ++ "_" ++ sanitizedName ++ ".pdf"

/-- No two consecutive underscores anywhere in the list. -/
def noDoubleUnderscore : List Char → Bool
  | [] => true
  | [_] => true
  | a :: b :: rest => (!(a == '_' && b == '_')) && noDoubleUnderscore (b :: rest)

/-- The rows formed by the accumulation loop of `drawImageGrid`:
chunks of `c` images, the last chunk possibly shorter. -/
def chunkRows (c : ℕ) : List α → List (List α)
  | [] => []
  | x :: xs => (x :: xs.take (c - 1)) :: chunkRows c (xs.drop (c - 1))
termination_by l => l.length
decreasing_by
  simp only [List.length_cons, List.length_drop]
  omega

/-- One row draw of `drawImageGrid` (lines 304-327): reserve one row
height, draw every image of the row, advance the cursor by the row
height. -/
def drawGridRow (embedJpg : Img → Option Dims) (iw ih gap : ℚ)
    (s : LayoutState) (rowImages : List Img) : Except Unit LayoutState :=
  let rowHeight := ih + gap
  let s1 := (addPageIfNeeded s rowHeight).1
  match drawRowImages embedJpg iw ih s1 rowImages with
  | .error e => .error e
  | .ok s2 => .ok { s2 with currentY := s2.currentY - rowHeight }

/-- Sequential row-wise processing: draw each row in turn, stopping at
the first failure. -/
def rowsFold (embedJpg : Img → Option Dims) (iw ih gap : ℚ)
    (s : LayoutState) : List (List Img) → Except Unit LayoutState
  | [] => .ok s
  | row :: rest =>
    match drawGridRow embedJpg iw ih gap s row with
    | .error e => .error e
    | .ok s1 => rowsFold embedJpg iw ih gap s1 rest

/-! ### Draw-log bounds for C5

`SB s s'` says an operation taking `s` to `s'` only appended draw
commands, all landing on the page that was current when they were
issued — between index `s.numPages - 1` and the final last page — and
never removed a page. -/

def SB (s s' : LayoutState) : Prop :=
  s.numPages ≤ s'.numPages ∧
  ∃ t, s'.draws = s.draws ++ t ∧
    ∀ d ∈ t, s.numPages ≤ d.page + 1 ∧ d.page < s'.numPages

/-- A minimal activity record for the C5 witness: three one-letter
fields, one-word description and impact, no photos. -/
def witnessActivity : Activity Unit :=
  ⟨"d", "l", "p", 0, "", "", "", "", "", "x", "y", []⟩

/-- State after drawing `witnessActivity` once from the fresh document:
everything lands on page 1. -/
def witnessState1 : LayoutState :=
  ⟨2, 550, List.replicate 11 (DrawCmd.text 1) ++ [DrawCmd.line 1]⟩

/-- State after the second consecutive activity: its content lands on
page 2. -/
def witnessState2 : LayoutState :=
  ⟨3, 550, (List.replicate 11 (DrawCmd.text 1) ++ [DrawCmd.line 1]) ++
    (List.replicate 11 (DrawCmd.text 2) ++ [DrawCmd.line 2])⟩

/-! ### The draw-operation language for C1

The page-break-aware draw operations of the engine, as issued after
`startDocument`.  `addSpace`, `drawTitle` and `drawDistributionTable`
are excluded: they end in an unchecked cursor move (see the C1
counterexample). -/

inductive DrawOp (Img : Type) where
  | heading (text : String) (level : ℕ)
  | field (label value : String)
  | wrappedText (text : String) (x maxWidth fontSize lineHeight : ℚ)
  | image (img : Img) (maxWidth : ℚ) (maxHeight : Option ℚ)
  | imageGrid (images : List Img) (columns : ℕ) (gap : ℚ)
  | hline
  | activity (a : Activity Img) (index : ℕ)

/-- Run one draw operation. -/
def runOp (widthAt widthAtBold : String → ℚ → ℚ) (embedJpg : Img → Option Dims)
    (s : LayoutState) : DrawOp Img → Except Unit LayoutState
  | .heading text level => .ok (drawHeading s text level)
  | .field label value => .ok (drawField widthAt widthAtBold s label value)
  | .wrappedText text x maxWidth fontSize lineHeight =>
    .ok (drawWrappedText widthAt s text x maxWidth fontSize lineHeight).1
  | .image img maxWidth maxHeight =>
    match drawImage embedJpg s img maxWidth maxHeight with
    | .error e => .error e
    | .ok (s1, _) => .ok s1
  | .imageGrid images columns gap => drawImageGrid embedJpg s images columns gap
  | .hline => .ok (drawLine s)
  | .activity a index => drawActivity widthAt widthAtBold embedJpg s a index

/-- Run a sequence of draw operations, stopping at the first failure. -/
def runOps (widthAt widthAtBold : String → ℚ → ℚ)
    (embedJpg : Img → Option Dims) (s : LayoutState) :
    List (DrawOp Img) → Except Unit LayoutState
  | [] => .ok s
  | op :: rest =>
    match runOp widthAt widthAtBold embedJpg s op with
    | .error e => .error e
    | .ok s1 => runOps widthAt widthAtBold embedJpg s1 rest

/-- The vertical space of the content rectangle. -/
def contentHeight : ℚ := PAGE_HEIGHT - margins.top - margins.bottom

/-- Size constraints under which an operation's reserved heights fit on
an empty page (all real calls in the renderer satisfy them). -/
def opOK (embedJpg : Img → Option Dims) : DrawOp Img → Prop
  | .wrappedText _ _ _ fontSize lineHeight =>
    0 < fontSize * lineHeight ∧ fontSize * lineHeight ≤ contentHeight
  | .image img maxWidth maxHeight =>
    match embedJpg img with
    | some dims => 0 ≤ (imageDrawSize dims maxWidth maxHeight).2 ∧
        (imageDrawSize dims maxWidth maxHeight).2 + 10 ≤ contentHeight
    | none => True
  | .imageGrid _ columns gap =>
    0 ≤ ((contentWidth - gap * ((columns : ℚ) - 1)) / (columns : ℚ)) /
        (IMAGE_CONFIG_width / IMAGE_CONFIG_height) + gap ∧
      ((contentWidth - gap * ((columns : ℚ) - 1)) / (columns : ℚ)) /
        (IMAGE_CONFIG_width / IMAGE_CONFIG_height) + gap ≤ contentHeight
  | _ => True

/-- The cursor invariant of the spec:
`marginBottom ≤ cursor ≤ pageHeight - marginTop`. -/
def cursorInv (s : LayoutState) : Prop :=
  margins.bottom ≤ s.currentY ∧ s.currentY ≤ PAGE_HEIGHT - margins.top

/-- The upper half of the invariant alone (the cursor never rises above
the top margin line). -/
def UB (s : LayoutState) : Prop :=
  s.currentY ≤ PAGE_HEIGHT - margins.top

/-! ## Theorems -/

/-- C4: `addPageIfNeeded(height)` appends a new page and returns `true`
iff `cursor - height < marginBottom`; when a page is appended the cursor
is reset to `pageHeight - topMargin` and the page count grows by one,
the draw log unchanged; otherwise it returns `false` and leaves the
state unchanged. -/
theorem claim4_addPageIfNeeded (s : LayoutState) (h : ℚ) :
    ((addPageIfNeeded s h).2 = true ↔ s.currentY - h < margins.bottom) ∧
    ((addPageIfNeeded s h).2 = true →
      (addPageIfNeeded s h).1 = addNewPage s ∧
      (addPageIfNeeded s h).1.currentY = PAGE_HEIGHT - margins.top ∧
      (addPageIfNeeded s h).1.numPages = s.numPages + 1 ∧
      (addPageIfNeeded s h).1.draws = s.draws) ∧
    ((addPageIfNeeded s h).2 = false → (addPageIfNeeded s h).1 = s) := by
  unfold addPageIfNeeded
  by_cases hc : s.currentY - h < margins.bottom
  · simp [hc, addNewPage]
  · simp [hc]

/-- Witness for C4 at a concrete state and height: from the fresh
document state, requesting 700 points forces a page break. -/
theorem claim4_addPageIfNeeded_witness :
    ((addPageIfNeeded initState 700).2 = true ↔
      initState.currentY - 700 < margins.bottom) ∧
    ((addPageIfNeeded initState 700).2 = true →
      (addPageIfNeeded initState 700).1 = addNewPage initState ∧
      (addPageIfNeeded initState 700).1.currentY = PAGE_HEIGHT - margins.top ∧
      (addPageIfNeeded initState 700).1.numPages = initState.numPages + 1 ∧
      (addPageIfNeeded initState 700).1.draws = initState.draws) ∧
    ((addPageIfNeeded initState 700).2 = false →
      (addPageIfNeeded initState 700).1 = initState) :=
  claim4_addPageIfNeeded initState 700

/-- C10: `drawWrappedText` on text that is empty or whitespace-only
(JS `!text || text.trim() === ''`, which also covers an absent value)
returns 0 and leaves the layout state — cursor, page count, and draw
log — completely unchanged, for every position, width and style. -/
theorem claim10_drawWrappedText_blank (widthAt : String → ℚ → ℚ)
    (s : LayoutState) (text : String) (x maxWidth fontSize lineHeight : ℚ)
    (h : jsTrim text = "") :
    drawWrappedText widthAt s text x maxWidth fontSize lineHeight = (s, 0) := by
  unfold drawWrappedText
  rw [if_pos (Or.inr h)]

/-- Witness for C10: whitespace-only text from a nearly-full state. -/
theorem claim10_drawWrappedText_blank_witness :
    jsTrim "  " = "" ∧
    drawWrappedText (fun t _ => (t.length : ℚ)) (addSpace initState 690) "  "
      (margins.left + 10) (contentWidth - 10) fonts_body 1.3 =
      (addSpace initState 690, 0) :=
  ⟨by decide,
   claim10_drawWrappedText_blank (fun t _ => (t.length : ℚ))
     (addSpace initState 690) "  " (margins.left + 10) (contentWidth - 10)
     fonts_body 1.3 (by decide)⟩

/-! ### Sanitizer lemmas for C6 -/

theorem replaceDisallowed_allowed (l : List Char) :
    ∀ c ∈ replaceDisallowed l, allowedChar c = true := by
  intro c hc
  simp only [replaceDisallowed, List.mem_map] at hc
  obtain ⟨a, _, ha⟩ := hc
  by_cases h : allowedChar a
  · rw [if_pos h] at ha; subst ha; exact h
  · rw [if_neg h] at ha; subst ha; decide

theorem replaceDisallowed_id (l : List Char) (h : ∀ c ∈ l, allowedChar c = true) :
    replaceDisallowed l = l := by
  induction l with
  | nil => rfl
  | cons c t ih =>
    simp only [replaceDisallowed, List.map_cons] at *
    rw [if_pos (h c (List.mem_cons_self c t)), ih fun d hd => h d (List.mem_cons_of_mem c hd)]

theorem collapseAux_subset (l : List Char) :
    ∀ b, ∀ c ∈ collapseAux l b, c ∈ l ∨ c = '_' := by
  induction l with
  | nil => intro b c hc; simp [collapseAux] at hc
  | cons a t ih =>
    intro b c hc
    by_cases ha : a = '_'
    · subst ha
      cases b with
      | true =>
        simp only [collapseAux, if_pos rfl, if_pos rfl] at hc
        rcases ih true c hc with h | h
        · exact Or.inl (List.mem_cons_of_mem _ h)
        · exact Or.inr h
      | false =>
        simp only [collapseAux, if_pos rfl] at hc
        rcases List.mem_cons.mp hc with h | h
        · exact Or.inr h
        · rcases ih true c h with h2 | h2
          · exact Or.inl (List.mem_cons_of_mem _ h2)
          · exact Or.inr h2
    · simp only [collapseAux, if_neg ha] at hc
      rcases List.mem_cons.mp hc with h | h
      · exact Or.inl (h ▸ List.mem_cons_self a t)
      · rcases ih false c h with h2 | h2
        · exact Or.inl (List.mem_cons_of_mem _ h2)
        · exact Or.inr h2

theorem collapseAux_true_head (l : List Char) :
    ∀ t, collapseAux l true ≠ '_' :: t := by
  induction l with
  | nil => intro t h; simp [collapseAux] at h
  | cons a r ih =>
    intro t h
    by_cases ha : a = '_'
    · subst ha
      simp only [collapseAux, if_pos rfl, if_pos rfl] at h
      exact ih t h
    · simp only [collapseAux, if_neg ha] at h
      exact ha (List.head_eq_of_cons_eq h)

theorem noDoubleUnderscore_tail {c : Char} {rest : List Char}
    (h : noDoubleUnderscore (c :: rest) = true) :
    noDoubleUnderscore rest = true := by
  cases rest with
  | nil => rfl
  | cons d r =>
    simp only [noDoubleUnderscore, Bool.and_eq_true] at h
    exact h.2

theorem collapseAux_noDouble (l : List Char) :
    ∀ b, noDoubleUnderscore (collapseAux l b) = true := by
  induction l with
  | nil => intro b; rfl
  | cons a r ih =>
    intro b
    by_cases ha : a = '_'
    · subst ha
      cases b with
      | true => simpa only [collapseAux, if_pos rfl, if_pos rfl] using ih true
      | false =>
        simp only [collapseAux, if_pos rfl]
        cases hr : collapseAux r true with
        | nil => rfl
        | cons d t =>
          have hd : ¬ d = '_' := by
            intro hdu
            exact collapseAux_true_head r t (by rw [hr, hdu])
          have := ih true
          rw [hr] at this
          simp only [noDoubleUnderscore, Bool.and_eq_true]
          refine ⟨?_, this⟩
          simp [hd]
    · simp only [collapseAux, if_neg ha]
      cases hr : collapseAux r false with
      | nil => rfl
      | cons d t =>
        have := ih false
        rw [hr] at this
        simp only [noDoubleUnderscore, Bool.and_eq_true]
        refine ⟨?_, this⟩
        simp [ha]

theorem collapseAux_id (l : List Char) :
    ∀ b, noDoubleUnderscore l = true → (b = true → ∀ t, l ≠ '_' :: t) →
    collapseAux l b = l := by
  induction l with
  | nil => intro b _ _; rfl
  | cons a r ih =>
    intro b hnd hb
    by_cases ha : a = '_'
    · subst ha
      cases b with
      | true => exact absurd rfl (hb rfl r)
      | false =>
        simp only [collapseAux, if_pos rfl]
        have hr : collapseAux r true = r := by
          refine ih true (noDoubleUnderscore_tail hnd) ?_
          intro _ t hrt
          cases hrt
          simp [noDoubleUnderscore] at hnd
        simp [hr]
    · simp only [collapseAux, if_neg ha]
      rw [ih false (noDoubleUnderscore_tail hnd) (by intro h; cases h)]

theorem mk_toList (s : String) : String.mk s.toList = s := by
  cases s; rfl

theorem toList_mk (l : List Char) : (String.mk l).toList = l := rfl

theorem sanitize_chars_allowed (s : String) :
    ∀ c ∈ (sanitize s).toList, allowedChar c = true := by
  intro c hc
  rw [sanitize, toList_mk] at hc
  rcases collapseAux_subset _ false c hc with h | h
  · exact replaceDisallowed_allowed _ c h
  · subst h; decide

/-- C6: filename sanitization is idempotent, and
`generateFilename("2025-2026", "O'Brien Smith")` (the apostrophe is
ASCII 39) is exactly `Cultural_Activities_Report_2025-2026_Smith.pdf` —
only the last whitespace-separated token of the name is used. -/
theorem claim6_generateFilename :
    (∀ s : String, sanitize (sanitize s) = sanitize s) ∧
    generateFilename "2025-2026"
        ("O" ++ String.mk [Char.ofNat 39] ++ "Brien Smith") =
      "Cultural_Activities_Report_2025-2026_Smith.pdf" := by
  constructor
  · intro s
    have h1 : replaceDisallowed (sanitize s).toList = (sanitize s).toList :=
      replaceDisallowed_id _ (sanitize_chars_allowed s)
    have h2 : noDoubleUnderscore (sanitize s).toList = true := by
      rw [sanitize, toList_mk]
      exact collapseAux_noDouble _ false
    calc sanitize (sanitize s)
        = String.mk (collapseUnderscores (replaceDisallowed (sanitize s).toList)) := rfl
      _ = String.mk (collapseUnderscores (sanitize s).toList) := by rw [h1]
      _ = String.mk (sanitize s).toList := by
            rw [collapseUnderscores, collapseAux_id _ false h2 (by intro h; cases h)]
      _ = sanitize s := mk_toList _
  · decide

/-! ### Word-wrap lemmas for C2 -/

theorem splitWsAux_no_ws (l : List Char) :
    ∀ (b : Bool) (acc : List Char), (∀ c ∈ acc, c.isWhitespace = false) →
    ∀ tok ∈ splitWsAux l b acc, ∀ c ∈ tok, c.isWhitespace = false := by
  induction l with
  | nil =>
    intro b acc hacc tok htok c hc
    simp only [splitWsAux, List.mem_singleton] at htok
    subst htok
    exact hacc c (List.mem_reverse.mp hc)
  | cons a r ih =>
    intro b acc hacc tok htok c hc
    by_cases hws : a.isWhitespace
    · cases b with
      | true =>
        rw [splitWsAux, if_pos hws, if_pos rfl] at htok
        exact ih true acc hacc tok htok c hc
      | false =>
        rw [splitWsAux, if_pos hws] at htok
        simp only [Bool.false_eq_true, if_false, List.mem_cons] at htok
        rcases htok with h | h
        · subst h; exact hacc c (List.mem_reverse.mp hc)
        · exact ih true [] (by intro d hd; simp at hd) tok h c hc
    · rw [splitWsAux, if_neg hws] at htok
      refine ih false (a :: acc) ?_ tok htok c hc
      intro d hd
      rcases List.mem_cons.mp hd with h | h
      · subst h; exact Bool.eq_false_iff.mpr hws
      · exact hacc d h

theorem jsSplitWs_no_space (t : String) :
    ∀ w ∈ jsSplitWs t, ¬ (' ' ∈ w.toList) := by
  intro w hw hsp
  simp only [jsSplitWs, List.mem_map] at hw
  obtain ⟨tok, htok, hmk⟩ := hw
  subst hmk
  rw [toList_mk] at hsp
  have := splitWsAux_no_ws t.toList false [] (by intro c hc; simp at hc) tok htok ' ' hsp
  simp at this

theorem wrap_fold_inv (widthOf : String → ℚ) (maxWidth : ℚ) :
    ∀ (words : List String) (acc : List String × String),
    (∀ w ∈ words, ¬ (' ' ∈ w.toList)) →
    (∀ l ∈ acc.1, widthOf l ≤ maxWidth ∨ ¬ (' ' ∈ l.toList)) →
    (acc.2 = "" ∨ widthOf acc.2 ≤ maxWidth ∨ ¬ (' ' ∈ acc.2.toList)) →
    (∀ l ∈ (words.foldl (wrapStep widthOf maxWidth) acc).1,
       widthOf l ≤ maxWidth ∨ ¬ (' ' ∈ l.toList)) ∧
    ((words.foldl (wrapStep widthOf maxWidth) acc).2 = "" ∨
      widthOf (words.foldl (wrapStep widthOf maxWidth) acc).2 ≤ maxWidth ∨
      ¬ (' ' ∈ (words.foldl (wrapStep widthOf maxWidth) acc).2.toList)) := by
  intro words
  induction words with
  | nil => intro acc _ h1 h2; exact ⟨h1, h2⟩
  | cons w ws ih =>
    intro acc hw h1 h2
    rw [List.foldl_cons]
    have hwword : ¬ (' ' ∈ w.toList) := hw w (List.mem_cons_self w ws)
    have hwrest : ∀ v ∈ ws, ¬ (' ' ∈ v.toList) := fun v hv => hw v (List.mem_cons_of_mem w hv)
    refine ih (wrapStep widthOf maxWidth acc w) hwrest ?_ ?_
    · intro l hl
      unfold wrapStep at hl
      by_cases hcond : widthOf (if acc.2 = "" then w else acc.2 ++ " " ++ w) > maxWidth ∧ acc.2 ≠ ""
      · rw [if_pos hcond] at hl
        rcases List.mem_append.mp hl with h | h
        · exact h1 l h
        · rcases h2 with h2 | h2
          · exact absurd h2 hcond.2
          · rw [List.mem_singleton.mp h]; exact h2
      · rw [if_neg hcond] at hl
        exact h1 l hl
    · unfold wrapStep
      by_cases hcur : acc.2 = ""
      · rw [if_neg (fun hc => hc.2 hcur), if_pos hcur]
        exact Or.inr (Or.inr hwword)
      · by_cases hover : widthOf (acc.2 ++ " " ++ w) > maxWidth
        · rw [if_pos ⟨by rwa [if_neg hcur], hcur⟩]
          exact Or.inr (Or.inr hwword)
        · rw [if_neg (by intro hc; rw [if_neg hcur] at hc; exact hover hc.1),
            if_neg hcur]
          exact Or.inr (Or.inl (not_lt.mp hover))

/-- C2: for every input text, width limit and measuring function, every
line produced by the line-breaking pass of `drawWrappedText` either
measures within `maxWidth` or contains no space — i.e. is a single
unbreakable word, placed alone and never split.  Further, on overflow
`wrapStep` commits the accumulated line and starts the next line with
the overflowing word. -/
theorem claim2_wrapLines (widthOf : String → ℚ) (maxWidth : ℚ)
    (text line : String)
    (hline : line ∈ wrapLines widthOf maxWidth (jsSplitWs text)) :
    (widthOf line ≤ maxWidth ∨ ¬ (' ' ∈ line.toList)) ∧
    (∀ (lines : List String) (cur word : String), cur ≠ "" →
      widthOf (cur ++ " " ++ word) > maxWidth →
      wrapStep widthOf maxWidth (lines, cur) word = (lines ++ [cur], word)) := by
  constructor
  · have hinv := wrap_fold_inv widthOf maxWidth (jsSplitWs text) ([], "")
      (jsSplitWs_no_space text) (by intro l hl; simp at hl) (Or.inl rfl)
    unfold wrapLines at hline
    by_cases hcur : ((jsSplitWs text).foldl (wrapStep widthOf maxWidth) ([], "")).2 ≠ ""
    · rw [if_pos hcur] at hline
      rcases List.mem_append.mp hline with h | h
      · exact hinv.1 line h
      · rw [List.mem_singleton.mp h]
        rcases hinv.2 with h2 | h2
        · exact absurd h2 hcur
        · exact h2
    · rw [if_neg hcur] at hline
      exact hinv.1 line hline
  · intro lines cur word hcur hover
    unfold wrapStep
    simp only [hcur, if_neg hcur]
    rw [if_pos ⟨by simpa [hcur] using hover, hcur⟩]

/-- Witness for C2 with character-count metric, `maxWidth = 5` and text
`"ab cd ef"` : the produced line `"ab cd"` obeys the bound, and an
overflowing word commits the accumulated line. -/
theorem claim2_wrapLines_witness :
    (("ab cd".length : ℚ) ≤ 5 ∨ ¬ (' ' ∈ "ab cd".toList)) ∧
    (∀ (lines : List String) (cur word : String), cur ≠ "" →
      ((cur ++ " " ++ word).length : ℚ) > 5 →
      wrapStep (fun t => (t.length : ℚ)) 5 (lines, cur) word = (lines ++ [cur], word)) :=
  claim2_wrapLines (fun t => (t.length : ℚ)) 5 "ab cd ef" "ab cd" (by decide)

/-! ### Orphan-check lemmas for C3 -/

theorem drawWrappedText_unfold (widthAt : String → ℚ → ℚ) (s : LayoutState)
    (text : String) (x maxWidth fontSize lineHeight : ℚ)
    (htext : ¬ (text = "" ∨ jsTrim text = "")) :
    drawWrappedText widthAt s text x maxWidth fontSize lineHeight =
      (drawLinesLoop (wrapLines (fun t => widthAt t fontSize) maxWidth (jsSplitWs text))
        (fontSize * lineHeight)
        (orphanBreak s
          (((wrapLines (fun t => widthAt t fontSize) maxWidth (jsSplitWs text)).length : ℚ) *
            (fontSize * lineHeight))
          (fontSize * lineHeight)),
       ((wrapLines (fun t => widthAt t fontSize) maxWidth (jsSplitWs text)).length : ℚ) *
         (fontSize * lineHeight)) := by
  unfold drawWrappedText
  rw [if_neg htext]

/-- C3: with nonblank text, whenever the whole block does not fit on the
remaining space and fewer than 2 lines would fit there, `drawWrappedText`
starts a fresh page before drawing any line; otherwise it draws from the
current state line by line (each line re-checked by `drawLinesStep`).  A
block whose first page holds at least 2 lines may straddle a page
boundary: from cursor 77 a 3-line block puts two lines on page 0 and one
on page 1. -/
theorem claim3_orphanCheck :
    (∀ (widthAt : String → ℚ → ℚ) (s : LayoutState) (text : String)
       (x maxWidth fontSize lineHeight : ℚ),
       ¬ (text = "" ∨ jsTrim text = "") →
       (s.currentY -
           ((wrapLines (fun t => widthAt t fontSize) maxWidth (jsSplitWs text)).length : ℚ) *
             (fontSize * lineHeight) < margins.bottom →
         ⌊(s.currentY - margins.bottom) / (fontSize * lineHeight)⌋ < 2 →
         (drawWrappedText widthAt s text x maxWidth fontSize lineHeight).1 =
           drawLinesLoop (wrapLines (fun t => widthAt t fontSize) maxWidth (jsSplitWs text))
             (fontSize * lineHeight) (addNewPage s)) ∧
       (¬ (s.currentY -
             ((wrapLines (fun t => widthAt t fontSize) maxWidth (jsSplitWs text)).length : ℚ) *
               (fontSize * lineHeight) < margins.bottom ∧
           ⌊(s.currentY - margins.bottom) / (fontSize * lineHeight)⌋ < 2) →
         (drawWrappedText widthAt s text x maxWidth fontSize lineHeight).1 =
           drawLinesLoop (wrapLines (fun t => widthAt t fontSize) maxWidth (jsSplitWs text))
             (fontSize * lineHeight) s)) ∧
    (drawWrappedText (fun t _ => (t.length : ℚ)) ⟨1, 77, []⟩ "aa bb cc"
        50 2 10 1.3).1 =
      ⟨2, 729, [.text 0, .text 0, .text 1]⟩ := by
  constructor
  · intro widthAt s text x maxWidth fontSize lineHeight htext
    rw [drawWrappedText_unfold widthAt s text x maxWidth fontSize lineHeight htext]
    constructor
    · intro h1 h2
      show drawLinesLoop _ _ (orphanBreak s _ _) = _
      rw [orphanBreak, if_pos h1, if_pos h2]
    · intro hno
      show drawLinesLoop _ _ (orphanBreak s _ _) = _
      rw [orphanBreak]
      by_cases h1 : s.currentY -
          ((wrapLines (fun t => widthAt t fontSize) maxWidth (jsSplitWs text)).length : ℚ) *
            (fontSize * lineHeight) < margins.bottom
      · rw [if_pos h1, if_neg (fun h2 => hno ⟨h1, h2⟩)]
      · rw [if_neg h1]
  · norm_num +decide [drawWrappedText, jsTrim, jsSplitWs, splitWsAux, wrapLines,
      wrapStep, orphanBreak, drawLinesLoop, drawLinesStep, recordText, addNewPage,
      margins, PAGE_HEIGHT]

/-- Witness for C3: from cursor 60 the same 3-line block triggers the
orphan check (0 lines would fit), so the loop starts from a fresh
page. -/
theorem claim3_orphanCheck_witness :
    ¬ (("aa bb cc" : String) = "" ∨ jsTrim "aa bb cc" = "") ∧
    (drawWrappedText (fun t _ => (t.length : ℚ)) ⟨1, 60, []⟩ "aa bb cc"
        50 2 10 1.3).1 =
      drawLinesLoop (wrapLines (fun t => ((fun t _ => (t.length : ℚ)) t 10)) 2
          (jsSplitWs "aa bb cc")) (10 * 1.3) (addNewPage ⟨1, 60, []⟩) :=
  ⟨by decide,
   ((claim3_orphanCheck.1 (fun t _ => (t.length : ℚ)) ⟨1, 60, []⟩ "aa bb cc"
      50 2 10 1.3 (by decide)).1
     (by norm_num +decide [wrapLines, wrapStep, jsSplitWs, splitWsAux, margins])
     (by norm_num +decide [margins]))⟩

/-! ### Image-size lemmas for C7 -/

theorem imageDrawSize_aspect (dims : Dims) (maxW : ℚ) (mh : Option ℚ)
    (h1 : 0 < dims.width) (h2 : 0 < dims.height) (h3 : 0 < maxW) :
    (imageDrawSize dims maxW mh).2 ≠ 0 ∧
    (imageDrawSize dims maxW mh).1 / (imageDrawSize dims maxW mh).2 =
      dims.width / dims.height := by
  have ha : 0 < dims.width / dims.height := div_pos h1 h2
  have ha' : dims.width / dims.height ≠ 0 := ne_of_gt ha
  have h3' : maxW ≠ 0 := ne_of_gt h3
  have key : maxW / (maxW / (dims.width / dims.height)) = dims.width / dims.height := by
    rw [div_div_eq_mul_div, mul_comm, mul_div_assoc, div_self h3', mul_one]
  cases mh with
  | none =>
    exact ⟨div_ne_zero h3' ha', key⟩
  | some m =>
    have hred : imageDrawSize dims maxW (some m) =
        (if m ≠ 0 ∧ maxW / (dims.width / dims.height) > m
         then (m * (dims.width / dims.height), m)
         else (maxW, maxW / (dims.width / dims.height))) := rfl
    rw [hred]
    by_cases hc : m ≠ 0 ∧ maxW / (dims.width / dims.height) > m
    · rw [if_pos hc]
      refine ⟨hc.1, ?_⟩
      show m * (dims.width / dims.height) / m = dims.width / dims.height
      rw [mul_comm, mul_div_assoc, div_self hc.1, mul_one]
    · rw [if_neg hc]
      exact ⟨div_ne_zero h3' ha', key⟩

theorem drawRowImages_spec (embedJpg : Img → Option Dims) (iw ih : ℚ) :
    ∀ (row : List Img) (s s' : LayoutState),
      drawRowImages embedJpg iw ih s row = .ok s' →
      s' = { s with draws :=
        s.draws ++ List.replicate row.length (DrawCmd.image (s.numPages - 1) iw ih) } := by
  intro row
  induction row with
  | nil =>
    intro s s' h
    simp only [drawRowImages] at h
    cases h
    simp
  | cons img rest ih2 =>
    intro s s' h
    simp only [drawRowImages] at h
    cases hemb : embedJpg img with
    | none => rw [hemb] at h; cases h
    | some d =>
      rw [hemb] at h
      have := ih2 (recordImage s iw ih) s' h
      rw [this]
      simp [recordImage, List.replicate_succ]

theorem gridLoop_image_draws (embedJpg : Img → Option Dims) (columns : ℕ)
    (iw ih gap : ℚ) :
    ∀ (l : List Img) (col : ℕ) (row : List Img) (s s' : LayoutState),
      gridLoop embedJpg columns iw ih gap s l col row = .ok s' →
      ∃ t, s'.draws = s.draws ++ t ∧
        ∀ d ∈ t, ∃ p, d = DrawCmd.image p iw ih := by
  intro l
  induction l with
  | nil =>
    intro col row s s' h
    simp only [gridLoop] at h
    cases h
    exact ⟨[], by simp⟩
  | cons img rest ih2 =>
    intro col row s s' h
    rw [gridLoop] at h
    by_cases hfl : col + 1 = columns ∨ rest.isEmpty
    · rw [if_pos hfl] at h
      dsimp only at h
      cases hrow : drawRowImages embedJpg iw ih (addPageIfNeeded s (ih + gap)).1
          (row ++ [img]) with
      | error e => rw [hrow] at h; cases h
      | ok s2 =>
        rw [hrow] at h
        obtain ⟨t, ht, htall⟩ := ih2 0 [] _ s' h
        have h2 := drawRowImages_spec embedJpg iw ih _ _ _ hrow
        have hpidraws : (addPageIfNeeded s (ih + gap)).1.draws = s.draws := by
          unfold addPageIfNeeded
          by_cases hb : s.currentY - (ih + gap) < margins.bottom
          · rw [if_pos hb]; rfl
          · rw [if_neg hb]
        refine ⟨List.replicate (row ++ [img]).length
          (DrawCmd.image ((addPageIfNeeded s (ih + gap)).1.numPages - 1) iw ih) ++ t, ?_, ?_⟩
        · rw [ht, h2]
          simp [hpidraws]
        · intro d hd
          rcases List.mem_append.mp hd with hmem | hmem
          · exact ⟨_, (List.eq_of_mem_replicate hmem)⟩
          · exact htall d hmem
    · rw [if_neg hfl] at h
      exact ih2 (col + 1) (row ++ [img]) s s' h

/-- C7: `drawImage` computes its size width-first, then clamps to
`maxHeight` re-deriving the width, so the drawn image's
`width / height` equals the source's `width / height`; `drawImageGrid`
instead draws every image at one shared cell size whose height is the
cell width divided by the fixed `1600/900` target ratio, regardless of
each image's own dimensions. -/
theorem claim7_aspect {Img : Type} (embedJpg : Img → Option Dims) :
    (∀ (img : Img) (dims : Dims) (s : LayoutState) (maxWidth : ℚ)
       (maxHeight : Option ℚ) (s' : LayoutState) (used : ℚ),
       embedJpg img = some dims → 0 < dims.width → 0 < dims.height →
       0 < maxWidth →
       drawImage embedJpg s img maxWidth maxHeight = .ok (s', used) →
       ∃ p dw dh, s'.draws = s.draws ++ [DrawCmd.image p dw dh] ∧ dh ≠ 0 ∧
         dw / dh = dims.width / dims.height) ∧
    (∀ (s : LayoutState) (images : List Img) (columns : ℕ) (gap : ℚ)
       (s' : LayoutState),
       drawImageGrid embedJpg s images columns gap = .ok s' →
       ∃ t, s'.draws = s.draws ++ t ∧ ∀ d ∈ t, ∃ p,
         d = DrawCmd.image p ((contentWidth - gap * ((columns : ℚ) - 1)) / (columns : ℚ))
           (((contentWidth - gap * ((columns : ℚ) - 1)) / (columns : ℚ)) /
             (IMAGE_CONFIG_width / IMAGE_CONFIG_height))) := by
  constructor
  · intro img dims s maxWidth maxHeight s' used hemb hw hh hmw hdraw
    unfold drawImage at hdraw
    rw [hemb] at hdraw
    dsimp only at hdraw
    obtain ⟨hne, hasp⟩ := imageDrawSize_aspect dims maxWidth maxHeight hw hh hmw
    cases hiz : imageDrawSize dims maxWidth maxHeight with
    | mk dw dh =>
      rw [hiz] at hdraw hne hasp
      dsimp only at hdraw hne hasp
      rw [Except.ok.injEq, Prod.mk.injEq] at hdraw
      obtain ⟨hs, _⟩ := hdraw
      have hpidraws : (addPageIfNeeded s (dh + 10)).1.draws = s.draws := by
        unfold addPageIfNeeded
        by_cases hb : s.currentY - (dh + 10) < margins.bottom
        · rw [if_pos hb]; rfl
        · rw [if_neg hb]
      refine ⟨(addPageIfNeeded s (dh + 10)).1.numPages - 1, dw, dh, ?_, hne, hasp⟩
      rw [← hs]
      simp [recordImage, hpidraws]
  · intro s images columns gap s' hgrid
    unfold drawImageGrid at hgrid
    by_cases hlen : images.length = 0
    · rw [if_pos hlen] at hgrid
      cases hgrid
      exact ⟨[], by simp⟩
    · rw [if_neg hlen] at hgrid
      exact gridLoop_image_draws embedJpg columns _ _ gap images 0 [] s s' hgrid

/-- Witness for C7: a 2x1 source image drawn into a 4-wide, 1-high box
is clamped to 2x1 (ratio preserved), and a one-image grid with
`columns = 2`, `gap = 10` draws at the shared 251 x 2259/16 cell
size. -/
theorem claim7_aspect_witness :
    (drawImage (fun _ : Unit => some (⟨2, 1⟩ : Dims)) initState () 4 (some 1) =
      .ok (⟨1, 731, [DrawCmd.image 0 2 1]⟩, 11)) ∧
    (∃ p dw dh, (⟨1, 731, [DrawCmd.image 0 2 1]⟩ : LayoutState).draws =
        initState.draws ++ [DrawCmd.image p dw dh] ∧ dh ≠ 0 ∧
        dw / dh = (⟨2, 1⟩ : Dims).width / (⟨2, 1⟩ : Dims).height) ∧
    (drawImageGrid (fun _ : Unit => some (⟨2, 1⟩ : Dims)) initState [()] 2 10 =
      .ok ⟨1, 9453/16, [DrawCmd.image 0 251 (2259/16)]⟩) ∧
    (∃ t, (⟨1, 9453/16, [DrawCmd.image 0 251 (2259/16)]⟩ : LayoutState).draws =
        initState.draws ++ t ∧ ∀ d ∈ t, ∃ p,
        d = DrawCmd.image p ((contentWidth - 10 * ((2 : ℕ) - (1 : ℚ))) / ((2 : ℕ) : ℚ))
          (((contentWidth - 10 * ((2 : ℕ) - (1 : ℚ))) / ((2 : ℕ) : ℚ)) /
            (IMAGE_CONFIG_width / IMAGE_CONFIG_height))) := by
  have h1 : drawImage (fun _ : Unit => some (⟨2, 1⟩ : Dims)) initState () 4 (some 1) =
      .ok (⟨1, 731, [DrawCmd.image 0 2 1]⟩, 11) := by
    norm_num +decide [drawImage, imageDrawSize, addPageIfNeeded, addNewPage,
      recordImage, initState, margins, PAGE_HEIGHT]
  have h2 : drawImageGrid (fun _ : Unit => some (⟨2, 1⟩ : Dims)) initState [()] 2 10 =
      .ok ⟨1, 9453/16, [DrawCmd.image 0 251 (2259/16)]⟩ := by
    norm_num +decide [drawImageGrid, gridLoop, drawRowImages, addPageIfNeeded,
      addNewPage, recordImage, initState, margins, PAGE_HEIGHT, contentWidth,
      PAGE_WIDTH, IMAGE_CONFIG_width, IMAGE_CONFIG_height]
  refine ⟨h1, ?_, h2, ?_⟩
  · exact (claim7_aspect (fun _ : Unit => some (⟨2, 1⟩ : Dims))).1 () ⟨2, 1⟩
      initState 4 (some 1) _ 11 rfl (by norm_num) (by norm_num) (by norm_num) h1
  · exact (claim7_aspect (fun _ : Unit => some (⟨2, 1⟩ : Dims))).2 initState
      [()] 2 10 _ h2

/-! ### Grid-partition lemmas for C8 -/

theorem chunkRows_eq_take_drop (c : ℕ) (hc : 1 ≤ c) (l : List α) (hl : l ≠ []) :
    chunkRows c l = l.take c :: chunkRows c (l.drop c) := by
  cases l with
  | nil => exact absurd rfl hl
  | cons x xs =>
    rw [chunkRows]
    cases c with
    | zero => omega
    | succ n => simp

theorem gridLoop_chunkRows (embedJpg : Img → Option Dims) (columns : ℕ)
    (iw ih gap : ℚ) (hcol : 1 ≤ columns) :
    ∀ (l : List Img) (s : LayoutState) (row : List Img),
      row.length < columns → (l = [] → row = []) →
      gridLoop embedJpg columns iw ih gap s l row.length row =
        rowsFold embedJpg iw ih gap s (chunkRows columns (row ++ l)) := by
  intro l
  induction l with
  | nil =>
    intro s row _ hnil
    rw [hnil rfl]
    simp [gridLoop, chunkRows, rowsFold]
  | cons img rest ih2 =>
    intro s row hlt hnil
    rw [gridLoop]
    dsimp only
    by_cases hfl : row.length + 1 = columns ∨ rest.isEmpty
    · rw [if_pos hfl]
      have hhead : chunkRows columns (row ++ img :: rest) =
          (row ++ [img]) :: chunkRows columns rest := by
        have hne : row ++ img :: rest ≠ [] := by simp
        rw [chunkRows_eq_take_drop columns hcol _ hne]
        rcases hfl with h1 | h1
        · have hassoc : row ++ img :: rest = (row ++ [img]) ++ rest := by simp
          have hlen : (row ++ [img]).length = columns := by
            simp [h1]
          rw [hassoc, ← hlen, List.take_left, List.drop_left]
        · have hrest : rest = [] := by simpa [List.isEmpty_iff] using h1
          subst hrest
          have hlen : (row ++ [img]).length ≤ columns := by
            simp only [List.length_append, List.length_singleton]
            omega
          have hform : row ++ img :: ([] : List Img) = row ++ [img] := rfl
          rw [hform, List.take_of_length_le hlen, List.drop_eq_nil_of_le hlen]
      rw [hhead, rowsFold]
      cases hrow : drawRowImages embedJpg iw ih ((addPageIfNeeded s (ih + gap)).1)
          (row ++ [img]) with
      | error e =>
        simp only [hrow, drawGridRow]
      | ok s2 =>
        have hrec := ih2 { s2 with currentY := s2.currentY - (ih + gap) } []
          (by simp only [List.length_nil]; omega) (fun _ => rfl)
        simp only [List.length_nil, List.nil_append] at hrec
        simp only [hrow, drawGridRow]
        exact hrec
    · rw [if_neg hfl]
      push_neg at hfl
      have hrest : rest ≠ [] := by
        intro h
        subst h
        simp at hfl
      have hlt2 : (row ++ [img]).length < columns := by
        simp only [List.length_append, List.length_singleton]
        have := hfl.1
        omega
      have hlen : row.length + 1 = (row ++ [img]).length := by simp
      rw [hlen, ih2 s (row ++ [img]) hlt2 (fun h => absurd h hrest)]
      rw [List.append_assoc, List.singleton_append]

/-- C8: `drawImageGrid` partitions its images into rows of `columns`
with only the last row possibly shorter — 7 images at `columns = 2`
give exactly 4 rows (3 full, one single, no placeholder: a row draws
exactly one image command per image).  The grid is exactly the row-wise
fold of `drawGridRow` at cell width
`(contentWidth - gap*(columns-1)) / columns`, and each row reserves its
height once and draws all its images on a single page. -/
theorem claim8_imageGrid {Img : Type} (embedJpg : Img → Option Dims) :
    (chunkRows 2 [1, 2, 3, 4, 5, 6, 7] = [[1, 2], [3, 4], [5, 6], [7]]) ∧
    (∀ (s : LayoutState) (images : List Img) (columns : ℕ) (gap : ℚ),
      1 ≤ columns →
      drawImageGrid embedJpg s images columns gap =
        rowsFold embedJpg
          ((contentWidth - gap * ((columns : ℚ) - 1)) / (columns : ℚ))
          (((contentWidth - gap * ((columns : ℚ) - 1)) / (columns : ℚ)) /
            (IMAGE_CONFIG_width / IMAGE_CONFIG_height)) gap s
          (chunkRows columns images)) ∧
    (∀ (iw ih gap : ℚ) (s : LayoutState) (rowImages : List Img)
       (s' : LayoutState),
      drawGridRow embedJpg iw ih gap s rowImages = .ok s' →
      ∃ p t, s'.draws = s.draws ++ t ∧ t.length = rowImages.length ∧
        ∀ d ∈ t, d = DrawCmd.image p iw ih) := by
  refine ⟨by simp [chunkRows], ?_, ?_⟩
  · intro s images columns gap hcol
    unfold drawImageGrid
    by_cases hlen : images.length = 0
    · rw [if_pos hlen]
      rw [List.length_eq_zero] at hlen
      subst hlen
      rw [show chunkRows columns ([] : List Img) = [] from by simp [chunkRows]]
      rfl
    · rw [if_neg hlen]
      have hne : images ≠ [] := by
        intro h; subst h; simp at hlen
      have h0 : (0 : ℕ) = ([] : List Img).length := rfl
      calc gridLoop embedJpg columns _ _ gap s images 0 []
          = rowsFold embedJpg _ _ gap s (chunkRows columns ([] ++ images)) := by
            rw [h0, gridLoop_chunkRows embedJpg columns _ _ gap hcol images s []
              (by simp only [List.length_nil]; omega) (fun h => absurd h hne)]
        _ = _ := by rw [List.nil_append]
  · intro iw ih gap s rowImages s' hrow
    rw [drawGridRow] at hrow
    try dsimp only at hrow
    cases hr : drawRowImages embedJpg iw ih ((addPageIfNeeded s (ih + gap)).1)
        rowImages with
    | error e => rw [hr] at hrow; cases hrow
    | ok s2 =>
      rw [hr] at hrow
      have h2 := drawRowImages_spec embedJpg iw ih rowImages _ _ hr
      have hpidraws : (addPageIfNeeded s (ih + gap)).1.draws = s.draws := by
        unfold addPageIfNeeded
        by_cases hb : s.currentY - (ih + gap) < margins.bottom
        · rw [if_pos hb]; rfl
        · rw [if_neg hb]
      refine ⟨(addPageIfNeeded s (ih + gap)).1.numPages - 1,
        List.replicate rowImages.length
          (DrawCmd.image ((addPageIfNeeded s (ih + gap)).1.numPages - 1) iw ih),
        ?_, by simp, ?_⟩
      · cases hrow
        rw [h2]
        simp [hpidraws]
      · intro d hd
        exact List.eq_of_mem_replicate hd

/-- Witness for C8: a two-image grid at `columns = 2` is the row fold of
its chunks, and a concrete one-image row draw lands entirely on page 0
with exactly one image command. -/
theorem claim8_imageGrid_witness :
    (1 ≤ 2) ∧
    (drawImageGrid (fun _ : Unit => some (⟨2, 1⟩ : Dims)) initState [(), ()] 2 10 =
      rowsFold (fun _ : Unit => some (⟨2, 1⟩ : Dims))
        ((contentWidth - 10 * ((2 : ℕ) - (1 : ℚ))) / ((2 : ℕ) : ℚ))
        (((contentWidth - 10 * ((2 : ℕ) - (1 : ℚ))) / ((2 : ℕ) : ℚ)) /
          (IMAGE_CONFIG_width / IMAGE_CONFIG_height)) 10 initState
        (chunkRows 2 [(), ()])) ∧
    (drawGridRow (fun _ : Unit => some (⟨2, 1⟩ : Dims)) 251 (2259/16) 10 initState [()] =
      .ok ⟨1, 9453/16, [DrawCmd.image 0 251 (2259/16)]⟩) ∧
    (∃ p t, (⟨1, 9453/16, [DrawCmd.image 0 251 (2259/16)]⟩ : LayoutState).draws =
        initState.draws ++ t ∧ t.length = [()].length ∧
        ∀ d ∈ t, d = DrawCmd.image p 251 (2259/16)) := by
  have hrow : drawGridRow (fun _ : Unit => some (⟨2, 1⟩ : Dims)) 251 (2259/16) 10
      initState [()] = .ok ⟨1, 9453/16, [DrawCmd.image 0 251 (2259/16)]⟩ := by
    norm_num +decide [drawGridRow, drawRowImages, addPageIfNeeded, addNewPage,
      recordImage, initState, margins, PAGE_HEIGHT]
  refine ⟨by omega,
    (claim8_imageGrid (fun _ : Unit => some (⟨2, 1⟩ : Dims))).2.1 initState
      [(), ()] 2 10 (by omega),
    hrow,
    (claim8_imageGrid (fun _ : Unit => some (⟨2, 1⟩ : Dims))).2.2 251 (2259/16)
      10 initState [()] _ hrow⟩

/-! ### Error-propagation lemmas for C9 -/

/-- Inversion of the `match`-on-`Except` pattern used throughout the
embedding: if the combined expression is `ok`, the first step was `ok`
and the continuation ran on its value. -/
theorem except_bind_ok {β : Type} (x : Except Unit LayoutState)
    (g : LayoutState → Except Unit β) (r : β)
    (h : (match x with
          | .error e => (.error e : Except Unit β)
          | .ok s => g s) = .ok r) :
    ∃ s0, x = .ok s0 ∧ g s0 = .ok r := by
  cases x with
  | error e => exact absurd h (by simp)
  | ok s0 => exact ⟨s0, rfl, h⟩

theorem drawRowImages_ok_decodes (embedJpg : Img → Option Dims) (iw ih : ℚ) :
    ∀ (row : List Img) (s s' : LayoutState),
      drawRowImages embedJpg iw ih s row = .ok s' →
      ∀ img ∈ row, (embedJpg img).isSome := by
  intro row
  induction row with
  | nil => intro s s' _ img hmem; simp at hmem
  | cons i rest ih2 =>
    intro s s' h img hmem
    simp only [drawRowImages] at h
    cases hemb : embedJpg i with
    | none => rw [hemb] at h; cases h
    | some d =>
      rw [hemb] at h
      rcases List.mem_cons.mp hmem with hm | hm
      · subst hm; simp [hemb]
      · exact ih2 _ _ h img hm

theorem gridLoop_ok_decodes (embedJpg : Img → Option Dims) (columns : ℕ)
    (iw ih gap : ℚ) :
    ∀ (l : List Img) (col : ℕ) (row : List Img) (s s' : LayoutState),
      (l = [] → row = []) →
      gridLoop embedJpg columns iw ih gap s l col row = .ok s' →
      ∀ img ∈ row ++ l, (embedJpg img).isSome := by
  intro l
  induction l with
  | nil =>
    intro col row s s' hnil _ img hmem
    rw [hnil rfl] at hmem
    simp at hmem
  | cons i rest ih2 =>
    intro col row s s' _ h img hmem
    rw [gridLoop] at h
    dsimp only at h
    by_cases hfl : col + 1 = columns ∨ rest.isEmpty
    · rw [if_pos hfl] at h
      cases hrow : drawRowImages embedJpg iw ih
          ((addPageIfNeeded s (ih + gap)).1) (row ++ [i]) with
      | error e => rw [hrow] at h; cases h
      | ok s2 =>
        rw [hrow] at h
        have hfirst := drawRowImages_ok_decodes embedJpg iw ih _ _ _ hrow
        have hrest := ih2 0 [] _ _ (fun _ => rfl) h
        rcases List.mem_append.mp hmem with hm | hm
        · exact hfirst img (List.mem_append.mpr (Or.inl hm))
        · rcases List.mem_cons.mp hm with hm2 | hm2
          · exact hfirst img (by subst hm2; simp)
          · exact hrest img (by simpa using hm2)
    · rw [if_neg hfl] at h
      have hrest2 : rest ≠ [] := by
        intro hr
        subst hr
        simp at hfl
      have := ih2 (col + 1) (row ++ [i]) s s' (fun hr => absurd hr hrest2) h
      apply this
      rcases List.mem_append.mp hmem with hm | hm
      · simp [hm]
      · rcases List.mem_cons.mp hm with hm2 | hm2
        · simp [hm2]
        · simp [hm2]

theorem drawImageGrid_ok_decodes (embedJpg : Img → Option Dims)
    (s : LayoutState) (images : List Img) (columns : ℕ) (gap : ℚ)
    (s' : LayoutState) (h : drawImageGrid embedJpg s images columns gap = .ok s') :
    ∀ img ∈ images, (embedJpg img).isSome := by
  intro img hmem
  unfold drawImageGrid at h
  by_cases hlen : images.length = 0
  · rw [List.length_eq_zero] at hlen
    subst hlen
    simp at hmem
  · rw [if_neg hlen] at h
    have hne : images ≠ [] := by intro hr; subst hr; simp at hlen
    exact gridLoop_ok_decodes embedJpg columns _ _ gap images 0 [] s s'
      (fun hr => absurd hr hne) h img (by simpa using hmem)

theorem drawActivity_ok_decodes (widthAt widthAtBold : String → ℚ → ℚ)
    (embedJpg : Img → Option Dims) (s : LayoutState) (activity : Activity Img)
    (index : ℕ) (s' : LayoutState)
    (h : drawActivity widthAt widthAtBold embedJpg s activity index = .ok s') :
    ∀ img ∈ activity.photos, (embedJpg img).isSome := by
  intro img hmem
  unfold drawActivity at h
  dsimp only at h
  obtain ⟨s0, hgrid, _⟩ := except_bind_ok _ _ _ h
  rw [if_pos (List.length_pos_of_mem hmem)] at hgrid
  exact drawImageGrid_ok_decodes embedJpg _ activity.photos _ 10 s0 hgrid img hmem

theorem activitiesLoop_ok_decodes (widthAt widthAtBold : String → ℚ → ℚ)
    (embedJpg : Img → Option Dims) :
    ∀ (acts : List (Activity Img)) (s : LayoutState) (index : ℕ)
      (s' : LayoutState),
      activitiesLoop widthAt widthAtBold embedJpg s acts index = .ok s' →
      ∀ a ∈ acts, ∀ img ∈ a.photos, (embedJpg img).isSome := by
  intro acts
  induction acts with
  | nil => intro s index s' _ a hmem; simp at hmem
  | cons a rest ih2 =>
    intro s index s' h b hmem
    simp only [activitiesLoop] at h
    cases hact : drawActivity widthAt widthAtBold embedJpg s a index with
    | error e => rw [hact] at h; cases h
    | ok s1 =>
      rw [hact] at h
      rcases List.mem_cons.mp hmem with hm | hm
      · subst hm
        exact drawActivity_ok_decodes widthAt widthAtBold embedJpg s b index s1 hact
      · exact ih2 s1 (index + 1) s' h b hm

theorem generate_ok_decodes (widthAt widthAtBold : String → ℚ → ℚ)
    (embedJpg : Img → Option Dims) (headerImageBytes : Option Img)
    (report : Report Img) (s' : LayoutState)
    (h : generate widthAt widthAtBold embedJpg headerImageBytes report = .ok s') :
    ∀ a ∈ report.activities, ∀ img ∈ a.photos, (embedJpg img).isSome := by
  unfold generate at h
  try dsimp only at h
  obtain ⟨s1, _, h1⟩ := except_bind_ok _ _ _ h
  try dsimp only at h1
  obtain ⟨s2, _, h2⟩ := except_bind_ok _ _ _ h1
  try dsimp only at h2
  exact activitiesLoop_ok_decodes widthAt widthAtBold embedJpg
    report.activities _ 1 s' h2

/-- C9: an image decode failure in `drawImage` or `drawImageGrid` is an
error that fails the whole `generate` call (no state is produced);
only the logo of `drawOrgHeader` degrades: a failed PNG embed falls
back to a JPEG embed, and if both fail the header is drawn exactly as
with no logo at all. -/
theorem claim9_decodeFailure {Img : Type}
    (embedPng embedJpg : Img → Option Dims) :
    (∀ (s : LayoutState) (img : Img) (maxWidth : ℚ) (maxHeight : Option ℚ),
      embedJpg img = none →
      drawImage embedJpg s img maxWidth maxHeight = .error ()) ∧
    (∀ (s : LayoutState) (images : List Img) (columns : ℕ) (gap : ℚ)
       (img : Img), img ∈ images → embedJpg img = none →
      drawImageGrid embedJpg s images columns gap = .error ()) ∧
    (∀ (widthAt widthAtBold : String → ℚ → ℚ) (headerImageBytes : Option Img)
       (report : Report Img) (a : Activity Img) (img : Img),
      a ∈ report.activities → img ∈ a.photos → embedJpg img = none →
      generate widthAt widthAtBold embedJpg headerImageBytes report = .error ()) ∧
    (∀ (s : LayoutState) (logo : Img),
      embedPng logo = none → embedJpg logo = none →
      drawOrgHeader embedPng embedJpg s (some logo) =
        drawOrgHeader embedPng embedJpg s none) := by
  refine ⟨?_, ?_, ?_, ?_⟩
  · intro s img maxWidth maxHeight hnone
    unfold drawImage
    rw [hnone]
  · intro s images columns gap img hmem hnone
    cases hres : drawImageGrid embedJpg s images columns gap with
    | ok s' =>
      have := drawImageGrid_ok_decodes embedJpg s images columns gap s' hres img hmem
      rw [hnone] at this
      cases this
    | error e => cases e; rfl
  · intro widthAt widthAtBold headerImageBytes report a img hact hmem hnone
    cases hres : generate widthAt widthAtBold embedJpg headerImageBytes report with
    | ok s' =>
      have := generate_ok_decodes widthAt widthAtBold embedJpg headerImageBytes
        report s' hres a hact img hmem
      rw [hnone] at this
      cases this
    | error e => cases e; rfl
  · intro s logo hpng hjpg
    simp [drawOrgHeader, hpng, hjpg]

/-- Witness for C9 with a decoder that always fails: a one-photo
activity makes the whole generation fail, while the logo fallback
degrades to the no-logo header. -/
theorem claim9_decodeFailure_witness :
    (drawImage (fun _ : Unit => (none : Option Dims)) initState () 512 (some 150) =
      .error ()) ∧
    (drawImageGrid (fun _ : Unit => (none : Option Dims)) initState [()] 2 10 =
      .error ()) ∧
    (generate (fun _ _ => 0) (fun _ _ => 0) (fun _ : Unit => (none : Option Dims))
      none
      ⟨"2025-2026", "A B", "N0001", "Public",
        none, none,
        [⟨"d", "l", "p", 0, "", "", "", "", "", "desc", "imp", [()]⟩]⟩ =
      .error ()) ∧
    (drawOrgHeader (fun _ : Unit => (none : Option Dims))
        (fun _ : Unit => (none : Option Dims)) initState (some ()) =
      drawOrgHeader (fun _ : Unit => (none : Option Dims))
        (fun _ : Unit => (none : Option Dims)) initState none) := by
  refine ⟨?_, ?_, ?_, ?_⟩
  · exact (claim9_decodeFailure (fun _ : Unit => (none : Option Dims))
      (fun _ : Unit => (none : Option Dims))).1 initState () 512 (some 150) rfl
  · exact (claim9_decodeFailure (fun _ : Unit => (none : Option Dims))
      (fun _ : Unit => (none : Option Dims))).2.1 initState [()] 2 10 ()
      (by simp) rfl
  · exact (claim9_decodeFailure (fun _ : Unit => (none : Option Dims))
      (fun _ : Unit => (none : Option Dims))).2.2.1 (fun _ _ => 0) (fun _ _ => 0)
      none
      ⟨"2025-2026", "A B", "N0001", "Public", none, none,
        [⟨"d", "l", "p", 0, "", "", "", "", "", "desc", "imp", [()]⟩]⟩
      ⟨"d", "l", "p", 0, "", "", "", "", "", "desc", "imp", [()]⟩ ()
      (by simp) (by simp) rfl
  · exact (claim9_decodeFailure (fun _ : Unit => (none : Option Dims))
      (fun _ : Unit => (none : Option Dims))).2.2.2 initState () rfl rfl

theorem SB_refl (s : LayoutState) : SB s s :=
  ⟨le_refl _, [], by simp, by simp⟩

theorem SB_trans {s s' s'' : LayoutState} (h1 : SB s s') (h2 : SB s' s'') :
    SB s s'' := by
  obtain ⟨m1, t1, hd1, hb1⟩ := h1
  obtain ⟨m2, t2, hd2, hb2⟩ := h2
  refine ⟨le_trans m1 m2, t1 ++ t2, by rw [hd2, hd1, List.append_assoc], ?_⟩
  intro d hd
  rcases List.mem_append.mp hd with h | h
  · exact ⟨(hb1 d h).1, lt_of_lt_of_le (hb1 d h).2 m2⟩
  · exact ⟨le_trans m1 (hb2 d h).1, (hb2 d h).2⟩

theorem SB_step {s a b : LayoutState} (hab : SB s a) (h1 : 1 ≤ s.numPages)
    (hnext : 1 ≤ a.numPages → SB a b) : SB s b :=
  SB_trans hab (hnext (le_trans h1 hab.1))

theorem sb_same {s s' : LayoutState} (hn : s'.numPages = s.numPages)
    (hd : s'.draws = s.draws) : SB s s' :=
  ⟨le_of_eq hn.symm, [], by simp [hd], by simp⟩

theorem sb_setCursor (c : LayoutState) (y : ℚ) :
    SB c { c with currentY := y } := sb_same rfl rfl

theorem sb_addSpace (c : LayoutState) (k : ℚ) : SB c (addSpace c k) :=
  sb_same rfl rfl

theorem sb_addNewPage (s : LayoutState) : SB s (addNewPage s) :=
  ⟨Nat.le_succ _, [], by simp [addNewPage], by simp⟩

theorem sb_recordText (s : LayoutState) (h1 : 1 ≤ s.numPages) :
    SB s (recordText s) := by
  refine ⟨le_refl _, [DrawCmd.text (s.numPages - 1)], rfl, ?_⟩
  intro d hd
  rw [List.mem_singleton] at hd
  subst hd
  refine ⟨?_, ?_⟩ <;> simp [DrawCmd.page, recordText] <;> omega

theorem sb_recordLine (s : LayoutState) (h1 : 1 ≤ s.numPages) :
    SB s (recordLine s) := by
  refine ⟨le_refl _, [DrawCmd.line (s.numPages - 1)], rfl, ?_⟩
  intro d hd
  rw [List.mem_singleton] at hd
  subst hd
  refine ⟨?_, ?_⟩ <;> simp [DrawCmd.page, recordLine] <;> omega

theorem sb_recordRect (s : LayoutState) (h1 : 1 ≤ s.numPages) :
    SB s (recordRect s) := by
  refine ⟨le_refl _, [DrawCmd.rect (s.numPages - 1)], rfl, ?_⟩
  intro d hd
  rw [List.mem_singleton] at hd
  subst hd
  refine ⟨?_, ?_⟩ <;> simp [DrawCmd.page, recordRect] <;> omega

theorem sb_recordImage (s : LayoutState) (w h : ℚ) (h1 : 1 ≤ s.numPages) :
    SB s (recordImage s w h) := by
  refine ⟨le_refl _, [DrawCmd.image (s.numPages - 1) w h], rfl, ?_⟩
  intro d hd
  rw [List.mem_singleton] at hd
  subst hd
  refine ⟨?_, ?_⟩ <;> simp [DrawCmd.page, recordImage] <;> omega

theorem sb_addPage1 (s : LayoutState) (hgt : ℚ) :
    SB s (addPageIfNeeded s hgt).1 := by
  unfold addPageIfNeeded
  by_cases hb : s.currentY - hgt < margins.bottom
  · rw [if_pos hb]; exact sb_addNewPage s
  · rw [if_neg hb]; exact SB_refl s

theorem sb_drawLinesStep (alh : ℚ) (s : LayoutState) (h1 : 1 ≤ s.numPages) :
    SB s (drawLinesStep alh s) := by
  unfold drawLinesStep
  dsimp only
  by_cases hb : s.currentY - alh < margins.bottom
  · rw [if_pos hb]
    exact SB_step (sb_addNewPage s) h1 (fun hu =>
      SB_step (sb_recordText _ hu) hu (fun _ => sb_setCursor _ _))
  · rw [if_neg hb]
    exact SB_step (sb_recordText s h1) h1 (fun _ => sb_setCursor _ _)

theorem sb_drawLinesLoop (lines : List String) (alh : ℚ) :
    ∀ (s : LayoutState), 1 ≤ s.numPages → SB s (drawLinesLoop lines alh s) := by
  unfold drawLinesLoop
  induction lines with
  | nil => intro s _; exact SB_refl s
  | cons l ls ih =>
    intro s h1
    rw [List.foldl_cons]
    exact SB_step (sb_drawLinesStep alh s h1) h1 (fun hu => ih _ hu)

theorem sb_orphanBreak (s : LayoutState) (tot alh : ℚ) :
    SB s (orphanBreak s tot alh) := by
  unfold orphanBreak
  dsimp only
  by_cases hb : s.currentY - tot < margins.bottom
  · rw [if_pos hb]
    by_cases hf : ⌊(s.currentY - margins.bottom) / alh⌋ < 2
    · rw [if_pos hf]; exact sb_addNewPage s
    · rw [if_neg hf]; exact SB_refl s
  · rw [if_neg hb]; exact SB_refl s

theorem sb_drawWrappedText (widthAt : String → ℚ → ℚ) (s : LayoutState)
    (text : String) (x mw fs lh : ℚ) (h1 : 1 ≤ s.numPages) :
    SB s (drawWrappedText widthAt s text x mw fs lh).1 := by
  unfold drawWrappedText
  by_cases hb : text = "" ∨ jsTrim text = ""
  · rw [if_pos hb]; exact SB_refl s
  · rw [if_neg hb]
    dsimp only
    exact SB_step (sb_orphanBreak s _ _) h1 (fun hu => sb_drawLinesLoop _ _ _ hu)

theorem sb_drawHeading (s : LayoutState) (text : String) (level : ℕ)
    (h1 : 1 ≤ s.numPages) : SB s (drawHeading s text level) := by
  unfold drawHeading
  dsimp only
  exact SB_step (sb_addPage1 s _) h1 (fun hu =>
    SB_step (sb_setCursor _ _) hu (fun hu2 =>
      SB_step (sb_recordText _ hu2) hu2 (fun _ => sb_setCursor _ _)))

theorem sb_drawField (widthAt widthAtBold : String → ℚ → ℚ) (s : LayoutState)
    (label value : String) (h1 : 1 ≤ s.numPages) :
    SB s (drawField widthAt widthAtBold s label value) := by
  unfold drawField
  dsimp only
  by_cases hfit : widthAt value fonts_body ≤
      contentWidth - widthAtBold (label ++ ": ") fonts_body
  · rw [if_pos hfit]
    exact SB_step (sb_addPage1 s _) h1 (fun hu =>
      SB_step (sb_recordText _ hu) hu (fun hu2 =>
        SB_step (sb_recordText _ hu2) hu2 (fun _ => sb_setCursor _ _)))
  · rw [if_neg hfit]
    exact SB_step (sb_addPage1 s _) h1 (fun hu =>
      SB_step (sb_recordText _ hu) hu (fun hu2 =>
        SB_step (sb_setCursor _ _) hu2 (fun hu3 =>
          sb_drawWrappedText _ _ _ _ _ _ _ hu3)))

theorem sb_drawLine (s : LayoutState) (h1 : 1 ≤ s.numPages) :
    SB s (drawLine s) := by
  unfold drawLine
  dsimp only
  exact SB_step (sb_addPage1 s 15) h1 (fun hu =>
    SB_step (sb_setCursor _ _) hu (fun hu2 =>
      SB_step (sb_recordLine _ hu2) hu2 (fun _ => sb_setCursor _ _)))

theorem sb_drawRowImages_ok (embedJpg : Img → Option Dims) (iw ih : ℚ)
    (row : List Img) (s s' : LayoutState)
    (h : drawRowImages embedJpg iw ih s row = .ok s') (h1 : 1 ≤ s.numPages) :
    SB s s' := by
  have hspec := drawRowImages_spec embedJpg iw ih row s s' h
  subst hspec
  refine ⟨le_refl _, List.replicate row.length (DrawCmd.image (s.numPages - 1) iw ih),
    rfl, ?_⟩
  intro d hd
  have := List.eq_of_mem_replicate hd
  subst this
  refine ⟨?_, ?_⟩ <;> simp [DrawCmd.page] <;> omega

theorem sb_gridLoop_ok (embedJpg : Img → Option Dims) (columns : ℕ)
    (iw ih gap : ℚ) :
    ∀ (l : List Img) (col : ℕ) (row : List Img) (s s' : LayoutState),
      gridLoop embedJpg columns iw ih gap s l col row = .ok s' →
      1 ≤ s.numPages → SB s s' := by
  intro l
  induction l with
  | nil =>
    intro col row s s' h _
    simp only [gridLoop] at h
    cases h
    exact SB_refl s
  | cons img rest ih2 =>
    intro col row s s' h h1
    rw [gridLoop] at h
    dsimp only at h
    by_cases hfl : col + 1 = columns ∨ rest.isEmpty
    · rw [if_pos hfl] at h
      cases hrow : drawRowImages embedJpg iw ih
          ((addPageIfNeeded s (ih + gap)).1) (row ++ [img]) with
      | error e => rw [hrow] at h; cases h
      | ok s2 =>
        rw [hrow] at h
        exact SB_step (sb_addPage1 s (ih + gap)) h1 (fun hu =>
          SB_step (sb_drawRowImages_ok embedJpg iw ih _ _ _ hrow hu) hu
            (fun hu2 => SB_step (sb_setCursor _ _) hu2
              (fun hu3 => ih2 0 [] _ s' h hu3)))
    · rw [if_neg hfl] at h
      exact ih2 (col + 1) (row ++ [img]) s s' h h1

theorem sb_drawImageGrid_ok (embedJpg : Img → Option Dims) (s : LayoutState)
    (images : List Img) (columns : ℕ) (gap : ℚ) (s' : LayoutState)
    (h : drawImageGrid embedJpg s images columns gap = .ok s')
    (h1 : 1 ≤ s.numPages) : SB s s' := by
  unfold drawImageGrid at h
  by_cases hlen : images.length = 0
  · rw [if_pos hlen] at h
    cases h
    exact SB_refl s
  · rw [if_neg hlen] at h
    exact sb_gridLoop_ok embedJpg columns _ _ gap images 0 [] s s' h h1

theorem sb_extraFields (widthAt widthAtBold : String → ℚ → ℚ)
    (u : LayoutState) (cond : Prop) [Decidable cond]
    (l1 v1 l2 v2 l3 v3 l4 v4 : String) (hu : 1 ≤ u.numPages) :
    SB u (if cond then
        drawField widthAt widthAtBold (drawField widthAt widthAtBold
          (drawField widthAt widthAtBold (drawField widthAt widthAtBold u l1 v1)
            l2 v2) l3 v3) l4 v4
      else u) := by
  by_cases hc : cond
  · rw [if_pos hc]
    exact SB_step (sb_drawField widthAt widthAtBold u l1 v1 hu) hu (fun h2 =>
      SB_step (sb_drawField _ _ _ _ _ h2) h2 (fun h3 =>
        SB_step (sb_drawField _ _ _ _ _ h3) h3 (fun h4 =>
          sb_drawField _ _ _ _ _ h4)))
  · rw [if_neg hc]
    exact SB_refl u

theorem drawActivity_bounds (widthAt widthAtBold : String → ℚ → ℚ)
    (embedJpg : Img → Option Dims) (s : LayoutState) (a : Activity Img)
    (index : ℕ) (s' : LayoutState) (h1 : 1 ≤ s.numPages)
    (h : drawActivity widthAt widthAtBold embedJpg s a index = .ok s') :
    s.numPages < s'.numPages ∧ ∃ t, s'.draws = s.draws ++ t ∧
      ∀ d ∈ t, s.numPages ≤ d.page ∧ d.page < s'.numPages := by
  unfold drawActivity at h
  try dsimp only at h
  obtain ⟨sg, hgrid, hfin⟩ := except_bind_ok _ _ _ h
  have hs' : s' = drawLine sg := by simpa using hfin.symm
  have h0 : 1 ≤ (addNewPage s).numPages := by simp [addNewPage]
  have hsb : SB (addNewPage s) s' := by
    rw [hs']
    refine SB_step ?_ h0 (fun hu => sb_drawLine sg hu)
    by_cases hph : a.photos.length > 0
    · rw [if_pos hph] at hgrid
      try dsimp only at hgrid
      refine SB_step ?_ h0 (fun hu => sb_drawImageGrid_ok _ _ _ _ _ _ hgrid hu)
      refine SB_step ?_ h0 (fun _ => sb_setCursor _ _)
      refine SB_step ?_ h0 (fun hu => sb_recordText _ hu)
      refine SB_step ?_ h0 (fun _ => sb_addSpace _ _)
      refine SB_step ?_ h0 (fun hu => sb_drawWrappedText _ _ _ _ _ _ _ hu)
      refine SB_step ?_ h0 (fun _ => sb_setCursor _ _)
      refine SB_step ?_ h0 (fun hu => sb_recordText _ hu)
      refine SB_step ?_ h0 (fun _ => sb_addSpace _ _)
      refine SB_step ?_ h0 (fun hu => sb_drawWrappedText _ _ _ _ _ _ _ hu)
      refine SB_step ?_ h0 (fun _ => sb_setCursor _ _)
      refine SB_step ?_ h0 (fun hu => sb_recordText _ hu)
      refine SB_step ?_ h0 (fun _ => sb_addSpace _ _)
      refine SB_step ?_ h0 (fun hu => sb_extraFields _ _ _ _ _ _ _ _ _ _ _ _ hu)
      refine SB_step ?_ h0 (fun hu => sb_drawField _ _ _ _ _ hu)
      refine SB_step ?_ h0 (fun hu => sb_drawField _ _ _ _ _ hu)
      refine SB_step ?_ h0 (fun hu => sb_drawField _ _ _ _ _ hu)
      exact sb_drawHeading _ _ _ h0
    · rw [if_neg hph] at hgrid
      have hsg := (Except.ok.injEq _ _).mp hgrid
      rw [← hsg]
      refine SB_step ?_ h0 (fun _ => sb_addSpace _ _)
      refine SB_step ?_ h0 (fun hu => sb_drawWrappedText _ _ _ _ _ _ _ hu)
      refine SB_step ?_ h0 (fun _ => sb_setCursor _ _)
      refine SB_step ?_ h0 (fun hu => sb_recordText _ hu)
      refine SB_step ?_ h0 (fun _ => sb_addSpace _ _)
      refine SB_step ?_ h0 (fun hu => sb_drawWrappedText _ _ _ _ _ _ _ hu)
      refine SB_step ?_ h0 (fun _ => sb_setCursor _ _)
      refine SB_step ?_ h0 (fun hu => sb_recordText _ hu)
      refine SB_step ?_ h0 (fun _ => sb_addSpace _ _)
      refine SB_step ?_ h0 (fun hu => sb_extraFields _ _ _ _ _ _ _ _ _ _ _ _ hu)
      refine SB_step ?_ h0 (fun hu => sb_drawField _ _ _ _ _ hu)
      refine SB_step ?_ h0 (fun hu => sb_drawField _ _ _ _ _ hu)
      refine SB_step ?_ h0 (fun hu => sb_drawField _ _ _ _ _ hu)
      exact sb_drawHeading _ _ _ h0
  obtain ⟨hmono, t, hdraws, hbound⟩ := hsb
  refine ⟨?_, t, ?_, ?_⟩
  · have hm2 : s.numPages + 1 ≤ s'.numPages := by
      simpa [addNewPage] using hmono
    omega
  · simpa [addNewPage] using hdraws
  · intro d hd
    have hb := hbound d hd
    have hlow : s.numPages + 1 ≤ d.page + 1 := by
      simpa [addNewPage] using hb.1
    exact ⟨by omega, hb.2⟩

/-- C5: `drawActivity` unconditionally starts a new page before drawing
any content, so for two consecutive activities every draw command of
the first lands on a page strictly below every page of the second — no
page index receives content from both. -/
theorem claim5_activityPages {Img : Type} (widthAt widthAtBold : String → ℚ → ℚ)
    (embedJpg : Img → Option Dims) (s s1 s2 : LayoutState)
    (a1 a2 : Activity Img) (i1 i2 : ℕ) (h0 : 1 ≤ s.numPages)
    (h1 : drawActivity widthAt widthAtBold embedJpg s a1 i1 = .ok s1)
    (h2 : drawActivity widthAt widthAtBold embedJpg s1 a2 i2 = .ok s2) :
    ∃ t1 t2, s1.draws = s.draws ++ t1 ∧ s2.draws = s1.draws ++ t2 ∧
      s.numPages < s1.numPages ∧
      (∀ d ∈ t1, s.numPages ≤ d.page ∧ d.page < s1.numPages) ∧
      (∀ d ∈ t2, s1.numPages ≤ d.page) ∧
      (∀ d1 ∈ t1, ∀ d2 ∈ t2, d1.page ≠ d2.page) := by
  obtain ⟨hm1, t1, hd1, hb1⟩ :=
    drawActivity_bounds widthAt widthAtBold embedJpg s a1 i1 s1 h0 h1
  have h01 : 1 ≤ s1.numPages := by omega
  obtain ⟨hm2, t2, hd2, hb2⟩ :=
    drawActivity_bounds widthAt widthAtBold embedJpg s1 a2 i2 s2 h01 h2
  refine ⟨t1, t2, hd1, hd2, hm1, hb1, fun d hd => (hb2 d hd).1, ?_⟩
  intro d1 hd1m d2 hd2m
  have hu1 := (hb1 d1 hd1m).2
  have hu2 := (hb2 d2 hd2m).1
  omega

/-- Witness for C5: two consecutive concrete activities; the first
draws only on page 1, the second only on page 2. -/
theorem claim5_activityPages_witness :
    (1 ≤ initState.numPages) ∧
    (drawActivity (fun _ _ => (0 : ℚ)) (fun _ _ => (0 : ℚ))
      (fun _ : Unit => some (⟨2, 1⟩ : Dims)) initState witnessActivity 1 =
      .ok witnessState1) ∧
    (drawActivity (fun _ _ => (0 : ℚ)) (fun _ _ => (0 : ℚ))
      (fun _ : Unit => some (⟨2, 1⟩ : Dims)) witnessState1 witnessActivity 2 =
      .ok witnessState2) ∧
    (∃ t1 t2, witnessState1.draws = initState.draws ++ t1 ∧
      witnessState2.draws = witnessState1.draws ++ t2 ∧
      initState.numPages < witnessState1.numPages ∧
      (∀ d ∈ t1, initState.numPages ≤ d.page ∧ d.page < witnessState1.numPages) ∧
      (∀ d ∈ t2, witnessState1.numPages ≤ d.page) ∧
      (∀ d1 ∈ t1, ∀ d2 ∈ t2, d1.page ≠ d2.page)) := by
  have e1 : drawActivity (fun _ _ => (0 : ℚ)) (fun _ _ => (0 : ℚ))
      (fun _ : Unit => some (⟨2, 1⟩ : Dims)) initState witnessActivity 1 =
      .ok witnessState1 := by
    norm_num +decide [drawActivity, drawHeading, drawField, drawWrappedText,
      jsTrim, jsSplitWs, splitWsAux, wrapLines, wrapStep, orphanBreak,
      drawLinesLoop, drawLinesStep, drawLine, addPageIfNeeded, addNewPage,
      addSpace, recordText, recordLine, initState, margins, PAGE_HEIGHT,
      PAGE_WIDTH, contentWidth, fonts_body, fonts_heading, witnessActivity,
      witnessState1, List.replicate]
  have e2 : drawActivity (fun _ _ => (0 : ℚ)) (fun _ _ => (0 : ℚ))
      (fun _ : Unit => some (⟨2, 1⟩ : Dims)) witnessState1 witnessActivity 2 =
      .ok witnessState2 := by
    norm_num +decide [drawActivity, drawHeading, drawField, drawWrappedText,
      jsTrim, jsSplitWs, splitWsAux, wrapLines, wrapStep, orphanBreak,
      drawLinesLoop, drawLinesStep, drawLine, addPageIfNeeded, addNewPage,
      addSpace, recordText, recordLine, margins, PAGE_HEIGHT,
      PAGE_WIDTH, contentWidth, fonts_body, fonts_heading, witnessActivity,
      witnessState1, witnessState2, List.replicate]
  have h0 : 1 ≤ initState.numPages := by norm_num [initState, addNewPage]
  exact ⟨h0, e1, e2,
    claim5_activityPages (fun _ _ => (0 : ℚ)) (fun _ _ => (0 : ℚ))
      (fun _ : Unit => some (⟨2, 1⟩ : Dims)) initState witnessState1
      witnessState2 witnessActivity witnessActivity 1 2 h0 e1 e2⟩

@[simp] theorem addNewPage_numPages (s : LayoutState) :
    (addNewPage s).numPages = s.numPages + 1 := rfl

@[simp] theorem addNewPage_currentY (s : LayoutState) :
    (addNewPage s).currentY = PAGE_HEIGHT - margins.top := rfl

@[simp] theorem addNewPage_draws (s : LayoutState) :
    (addNewPage s).draws = s.draws := rfl

@[simp] theorem recordText_currentY (s : LayoutState) :
    (recordText s).currentY = s.currentY := rfl

@[simp] theorem recordLine_currentY (s : LayoutState) :
    (recordLine s).currentY = s.currentY := rfl

@[simp] theorem recordImage_currentY (s : LayoutState) (w h : ℚ) :
    (recordImage s w h).currentY = s.currentY := rfl

@[simp] theorem recordRect_currentY (s : LayoutState) :
    (recordRect s).currentY = s.currentY := rfl

@[simp] theorem addSpace_currentY (s : LayoutState) (k : ℚ) :
    (addSpace s k).currentY = s.currentY - k := rfl

theorem inv_reserveDrop (s : LayoutState) (h k : ℚ) (hs : cursorInv s)
    (h0 : 0 ≤ k) (hkh : k ≤ h) (hh : h ≤ contentHeight) :
    margins.bottom ≤ (addPageIfNeeded s h).1.currentY - k ∧
      (addPageIfNeeded s h).1.currentY - k ≤ PAGE_HEIGHT - margins.top := by
  obtain ⟨hl, hu⟩ := hs
  have hch : contentHeight = PAGE_HEIGHT - margins.top - margins.bottom := rfl
  unfold addPageIfNeeded
  by_cases hb : s.currentY - h < margins.bottom
  · rw [if_pos hb]
    constructor
    · show margins.bottom ≤ (addNewPage s).currentY - k
      rw [addNewPage_currentY]
      linarith
    · show (addNewPage s).currentY - k ≤ PAGE_HEIGHT - margins.top
      rw [addNewPage_currentY]
      linarith
  · rw [if_neg hb]
    push_neg at hb
    exact ⟨by linarith, by linarith⟩

theorem ub_addPage1 (s : LayoutState) (h : ℚ) (hu : UB s) :
    UB (addPageIfNeeded s h).1 := by
  unfold addPageIfNeeded
  by_cases hb : s.currentY - h < margins.bottom
  · rw [if_pos hb]
    show (addNewPage s).currentY ≤ _
    rw [addNewPage_currentY]
  · rw [if_neg hb]
    exact hu

theorem ub_addNewPage (s : LayoutState) : UB (addNewPage s) :=
  le_of_eq (addNewPage_currentY s)

theorem ub_recordText (s : LayoutState) (hu : UB s) : UB (recordText s) := hu

theorem ub_addSpace (s : LayoutState) (k : ℚ) (hk : 0 ≤ k) (hu : UB s) :
    UB (addSpace s k) := by
  show s.currentY - k ≤ _
  have : s.currentY ≤ PAGE_HEIGHT - margins.top := hu
  linarith

theorem ub_drop (s : LayoutState) (e : ℚ) (he : 0 ≤ e) (hu : UB s) :
    UB { s with currentY := s.currentY - e } := by
  show s.currentY - e ≤ _
  have : s.currentY ≤ PAGE_HEIGHT - margins.top := hu
  linarith

theorem ub_drawLinesStep (alh : ℚ) (h0 : 0 ≤ alh) (s : LayoutState)
    (hu : UB s) : UB (drawLinesStep alh s) := by
  unfold drawLinesStep
  dsimp only
  by_cases hb : s.currentY - alh < margins.bottom
  · rw [if_pos hb]
    show (recordText (addNewPage s)).currentY - alh ≤ _
    rw [recordText_currentY, addNewPage_currentY]
    linarith
  · rw [if_neg hb]
    show (recordText s).currentY - alh ≤ _
    rw [recordText_currentY]
    have : s.currentY ≤ PAGE_HEIGHT - margins.top := hu
    linarith

theorem ub_drawLinesLoop (lines : List String) (alh : ℚ) (h0 : 0 ≤ alh) :
    ∀ (s : LayoutState), UB s → UB (drawLinesLoop lines alh s) := by
  unfold drawLinesLoop
  induction lines with
  | nil => intro s hu; exact hu
  | cons l ls ih =>
    intro s hu
    rw [List.foldl_cons]
    exact ih _ (ub_drawLinesStep alh h0 s hu)

theorem ub_orphanBreak (s : LayoutState) (tot alh : ℚ) (hu : UB s) :
    UB (orphanBreak s tot alh) := by
  unfold orphanBreak
  dsimp only
  by_cases hb : s.currentY - tot < margins.bottom
  · rw [if_pos hb]
    by_cases hf : ⌊(s.currentY - margins.bottom) / alh⌋ < 2
    · rw [if_pos hf]; exact ub_addNewPage s
    · rw [if_neg hf]; exact hu
  · rw [if_neg hb]; exact hu

theorem ub_drawWrappedText (widthAt : String → ℚ → ℚ) (s : LayoutState)
    (text : String) (x mw fs lh : ℚ) (h0 : 0 ≤ fs * lh) (hu : UB s) :
    UB (drawWrappedText widthAt s text x mw fs lh).1 := by
  unfold drawWrappedText
  by_cases hb : text = "" ∨ jsTrim text = ""
  · rw [if_pos hb]; exact hu
  · rw [if_neg hb]
    dsimp only
    exact ub_drawLinesLoop _ _ h0 _ (ub_orphanBreak s _ _ hu)

theorem ub_drawHeading (s : LayoutState) (text : String) (level : ℕ)
    (hu : UB s) : UB (drawHeading s text level) := by
  have hu' : s.currentY ≤ PAGE_HEIGHT - margins.top := hu
  have e1 : fonts_heading = 14 := rfl
  have e2 : fonts_subheading = 12 := rfl
  unfold UB drawHeading addPageIfNeeded
  dsimp only
  split_ifs <;> simp only [recordText_currentY, addNewPage_currentY] <;> linarith

theorem ub_drawField (widthAt widthAtBold : String → ℚ → ℚ) (s : LayoutState)
    (label value : String) (hu : UB s) :
    UB (drawField widthAt widthAtBold s label value) := by
  have hu' : s.currentY ≤ PAGE_HEIGHT - margins.top := hu
  have e1 : fonts_body * 1.4 = 14 := by norm_num [fonts_body]
  unfold drawField
  dsimp only
  by_cases hfit : widthAt value fonts_body ≤
      contentWidth - widthAtBold (label ++ ": ") fonts_body
  · rw [if_pos hfit]
    show (recordText (recordText (addPageIfNeeded s (fonts_body * 1.4)).1)).currentY -
        fonts_body * 1.4 ≤ _
    rw [recordText_currentY, recordText_currentY]
    have := ub_addPage1 s (fonts_body * 1.4) hu
    have h2 : (addPageIfNeeded s (fonts_body * 1.4)).1.currentY ≤
        PAGE_HEIGHT - margins.top := this
    linarith
  · rw [if_neg hfit]
    refine ub_drawWrappedText widthAt _ value _ _ fonts_body 1.3
      (by norm_num [fonts_body]) ?_
    show (recordText (addPageIfNeeded s (fonts_body * 1.4)).1).currentY -
        fonts_body * 1.4 ≤ _
    rw [recordText_currentY]
    have h2 : (addPageIfNeeded s (fonts_body * 1.4)).1.currentY ≤
        PAGE_HEIGHT - margins.top := ub_addPage1 s (fonts_body * 1.4) hu
    linarith

theorem ub_extraFields (widthAt widthAtBold : String → ℚ → ℚ)
    (u : LayoutState) (cond : Prop) [Decidable cond]
    (l1 v1 l2 v2 l3 v3 l4 v4 : String) (hu : UB u) :
    UB (if cond then
        drawField widthAt widthAtBold (drawField widthAt widthAtBold
          (drawField widthAt widthAtBold (drawField widthAt widthAtBold u l1 v1)
            l2 v2) l3 v3) l4 v4
      else u) := by
  by_cases hc : cond
  · rw [if_pos hc]
    exact ub_drawField _ _ _ _ _ (ub_drawField _ _ _ _ _ (ub_drawField _ _ _ _ _
      (ub_drawField _ _ _ _ _ hu)))
  · rw [if_neg hc]
    exact hu

theorem ub_drawRowImages_ok (embedJpg : Img → Option Dims) (iw ih : ℚ)
    (row : List Img) (s s' : LayoutState)
    (h : drawRowImages embedJpg iw ih s row = .ok s') (hu : UB s) : UB s' := by
  have hspec := drawRowImages_spec embedJpg iw ih row s s' h
  subst hspec
  exact hu

theorem ub_gridLoop_ok (embedJpg : Img → Option Dims) (columns : ℕ)
    (iw ih gap : ℚ) (h0 : 0 ≤ ih + gap) :
    ∀ (l : List Img) (col : ℕ) (row : List Img) (s s' : LayoutState),
      gridLoop embedJpg columns iw ih gap s l col row = .ok s' →
      UB s → UB s' := by
  intro l
  induction l with
  | nil =>
    intro col row s s' h hu
    simp only [gridLoop] at h
    cases h
    exact hu
  | cons img rest ih2 =>
    intro col row s s' h hu
    rw [gridLoop] at h
    dsimp only at h
    by_cases hfl : col + 1 = columns ∨ rest.isEmpty
    · rw [if_pos hfl] at h
      cases hrow : drawRowImages embedJpg iw ih
          ((addPageIfNeeded s (ih + gap)).1) (row ++ [img]) with
      | error e => rw [hrow] at h; cases h
      | ok s2 =>
        rw [hrow] at h
        refine ih2 0 [] _ s' h ?_
        have hub2 : UB s2 := ub_drawRowImages_ok embedJpg iw ih _ _ _ hrow
          (ub_addPage1 s (ih + gap) hu)
        show s2.currentY - (ih + gap) ≤ _
        have : s2.currentY ≤ PAGE_HEIGHT - margins.top := hub2
        linarith
    · rw [if_neg hfl] at h
      exact ih2 (col + 1) (row ++ [img]) s s' h hu

theorem ub_drawImageGrid_ok (embedJpg : Img → Option Dims) (s : LayoutState)
    (images : List Img) (columns : ℕ) (gap : ℚ) (s' : LayoutState)
    (h0 : 0 ≤ ((contentWidth - gap * ((columns : ℚ) - 1)) / (columns : ℚ)) /
      (IMAGE_CONFIG_width / IMAGE_CONFIG_height) + gap)
    (h : drawImageGrid embedJpg s images columns gap = .ok s') (hu : UB s) :
    UB s' := by
  unfold drawImageGrid at h
  by_cases hlen : images.length = 0
  · rw [if_pos hlen] at h
    cases h
    exact hu
  · rw [if_neg hlen] at h
    exact ub_gridLoop_ok embedJpg columns _ _ gap h0 images 0 [] s s' h hu

/-! #### Full-invariant lemmas -/

theorem inv_addNewPage (s : LayoutState) : cursorInv (addNewPage s) := by
  refine ⟨?_, ?_⟩ <;> rw [addNewPage_currentY] <;>
    norm_num [margins, PAGE_HEIGHT]

theorem inv_drawLine_weak (s : LayoutState) (hu : UB s) :
    cursorInv (drawLine s) := by
  have hu' : s.currentY ≤ PAGE_HEIGHT - margins.top := hu
  have p1 : PAGE_HEIGHT = 792 := rfl
  have m0 : margins.top = 50 := rfl
  have m1 : margins.bottom = 50 := rfl
  unfold cursorInv drawLine addPageIfNeeded
  dsimp only
  by_cases hb : s.currentY - 15 < margins.bottom
  · rw [if_pos hb]
    refine ⟨?_, ?_⟩ <;> simp [recordLine_currentY, addNewPage_currentY] <;>
      linarith
  · rw [if_neg hb]
    push_neg at hb
    refine ⟨?_, ?_⟩ <;> simp [recordLine_currentY] <;> linarith

theorem inv_drawHeading (s : LayoutState) (text : String) (level : ℕ)
    (hs : cursorInv s) : cursorInv (drawHeading s text level) := by
  obtain ⟨hl, hu⟩ := hs
  have p1 : PAGE_HEIGHT = 792 := rfl
  have m0 : margins.top = 50 := rfl
  have m1 : margins.bottom = 50 := rfl
  have e1 : fonts_heading = 14 := rfl
  have e2 : fonts_subheading = 12 := rfl
  unfold cursorInv drawHeading addPageIfNeeded
  dsimp only
  split_ifs <;> refine ⟨?_, ?_⟩ <;>
    simp [recordText_currentY, addNewPage_currentY] <;> linarith

theorem inv_drawLinesStep (alh : ℚ) (h0 : 0 < alh) (hc : alh ≤ contentHeight)
    (s : LayoutState) (hs : cursorInv s) : cursorInv (drawLinesStep alh s) := by
  obtain ⟨hl, hu⟩ := hs
  have p1 : PAGE_HEIGHT = 792 := rfl
  have m0 : margins.top = 50 := rfl
  have m1 : margins.bottom = 50 := rfl
  have hch : contentHeight = PAGE_HEIGHT - margins.top - margins.bottom := rfl
  unfold cursorInv drawLinesStep
  dsimp only
  by_cases hb : s.currentY - alh < margins.bottom
  · rw [if_pos hb]
    refine ⟨?_, ?_⟩ <;> simp [recordText_currentY, addNewPage_currentY] <;>
      linarith
  · rw [if_neg hb]
    push_neg at hb
    refine ⟨?_, ?_⟩ <;> simp [recordText_currentY] <;> linarith

theorem inv_drawLinesLoop (lines : List String) (alh : ℚ) (h0 : 0 < alh)
    (hc : alh ≤ contentHeight) :
    ∀ (s : LayoutState), cursorInv s → cursorInv (drawLinesLoop lines alh s) := by
  unfold drawLinesLoop
  induction lines with
  | nil => intro s hs; exact hs
  | cons l ls ih =>
    intro s hs
    rw [List.foldl_cons]
    exact ih _ (inv_drawLinesStep alh h0 hc s hs)

theorem inv_orphanBreak (s : LayoutState) (tot alh : ℚ) (hs : cursorInv s) :
    cursorInv (orphanBreak s tot alh) := by
  unfold orphanBreak
  dsimp only
  by_cases hb : s.currentY - tot < margins.bottom
  · rw [if_pos hb]
    by_cases hf : ⌊(s.currentY - margins.bottom) / alh⌋ < 2
    · rw [if_pos hf]; exact inv_addNewPage s
    · rw [if_neg hf]; exact hs
  · rw [if_neg hb]; exact hs

theorem inv_drawWrappedText (widthAt : String → ℚ → ℚ) (s : LayoutState)
    (text : String) (x mw fs lh : ℚ) (h0 : 0 < fs * lh)
    (hc : fs * lh ≤ contentHeight) (hs : cursorInv s) :
    cursorInv (drawWrappedText widthAt s text x mw fs lh).1 := by
  unfold drawWrappedText
  by_cases hb : text = "" ∨ jsTrim text = ""
  · rw [if_pos hb]; exact hs
  · rw [if_neg hb]
    dsimp only
    exact inv_drawLinesLoop _ _ h0 hc _ (inv_orphanBreak s _ _ hs)

theorem inv_drawField (widthAt widthAtBold : String → ℚ → ℚ) (s : LayoutState)
    (label value : String) (hs : cursorInv s) :
    cursorInv (drawField widthAt widthAtBold s label value) := by
  have e1 : fonts_body * 1.4 = 14 := by norm_num [fonts_body]
  have hres := inv_reserveDrop s (fonts_body * 1.4) (fonts_body * 1.4) hs
    (by linarith) (le_refl _)
    (by norm_num [contentHeight, fonts_body, margins, PAGE_HEIGHT])
  unfold drawField
  dsimp only
  by_cases hfit : widthAt value fonts_body ≤
      contentWidth - widthAtBold (label ++ ": ") fonts_body
  · rw [if_pos hfit]
    refine ⟨?_, ?_⟩ <;> simp [recordText_currentY] <;>
      [linarith [hres.1]; linarith [hres.2]]
  · rw [if_neg hfit]
    refine inv_drawWrappedText widthAt _ value _ _ fonts_body 1.3
      (by norm_num [fonts_body]) (by norm_num [contentHeight, fonts_body,
        margins, PAGE_HEIGHT]) ?_
    refine ⟨?_, ?_⟩ <;> simp [recordText_currentY] <;>
      [linarith [hres.1]; linarith [hres.2]]

theorem inv_drawImage_ok (embedJpg : Img → Option Dims) (s : LayoutState)
    (img : Img) (mw : ℚ) (mh : Option ℚ) (s1 : LayoutState) (used : ℚ)
    (h : drawImage embedJpg s img mw mh = .ok (s1, used)) (hs : cursorInv s)
    (hok : opOK embedJpg (DrawOp.image img mw mh)) : cursorInv s1 := by
  unfold drawImage at h
  cases hemb : embedJpg img with
  | none => rw [hemb] at h; cases h
  | some dims =>
    rw [hemb] at h
    dsimp only at h
    unfold opOK at hok
    try dsimp only at hok
    rw [hemb] at hok
    try dsimp only at hok
    cases hiz : imageDrawSize dims mw mh with
    | mk dw dh =>
      rw [hiz] at h hok
      dsimp only at h hok
      rw [Except.ok.injEq, Prod.mk.injEq] at h
      obtain ⟨hseq, _⟩ := h
      rw [← hseq]
      have hres := inv_reserveDrop s (dh + 10) (dh + 10) hs
        (by linarith [hok.1]) (le_refl _) hok.2
      refine ⟨?_, ?_⟩ <;> simp [recordImage_currentY] <;>
        [linarith [hres.1]; linarith [hres.2]]

theorem inv_gridLoop_ok (embedJpg : Img → Option Dims) (columns : ℕ)
    (iw ih gap : ℚ) (h0 : 0 ≤ ih + gap) (hc : ih + gap ≤ contentHeight) :
    ∀ (l : List Img) (col : ℕ) (row : List Img) (s s' : LayoutState),
      gridLoop embedJpg columns iw ih gap s l col row = .ok s' →
      cursorInv s → cursorInv s' := by
  intro l
  induction l with
  | nil =>
    intro col row s s' h hs
    simp only [gridLoop] at h
    cases h
    exact hs
  | cons img rest ih2 =>
    intro col row s s' h hs
    rw [gridLoop] at h
    dsimp only at h
    by_cases hfl : col + 1 = columns ∨ rest.isEmpty
    · rw [if_pos hfl] at h
      cases hrow : drawRowImages embedJpg iw ih
          ((addPageIfNeeded s (ih + gap)).1) (row ++ [img]) with
      | error e => rw [hrow] at h; cases h
      | ok s2 =>
        rw [hrow] at h
        refine ih2 0 [] _ s' h ?_
        have hspec := drawRowImages_spec embedJpg iw ih _ _ _ hrow
        have hres := inv_reserveDrop s (ih + gap) (ih + gap) hs h0 (le_refl _) hc
        subst hspec
        exact ⟨hres.1, hres.2⟩
    · rw [if_neg hfl] at h
      exact ih2 (col + 1) (row ++ [img]) s s' h hs

theorem inv_drawImageGrid_ok (embedJpg : Img → Option Dims) (s : LayoutState)
    (images : List Img) (columns : ℕ) (gap : ℚ) (s' : LayoutState)
    (h0 : 0 ≤ ((contentWidth - gap * ((columns : ℚ) - 1)) / (columns : ℚ)) /
      (IMAGE_CONFIG_width / IMAGE_CONFIG_height) + gap)
    (hc : ((contentWidth - gap * ((columns : ℚ) - 1)) / (columns : ℚ)) /
      (IMAGE_CONFIG_width / IMAGE_CONFIG_height) + gap ≤ contentHeight)
    (h : drawImageGrid embedJpg s images columns gap = .ok s')
    (hs : cursorInv s) : cursorInv s' := by
  unfold drawImageGrid at h
  by_cases hlen : images.length = 0
  · rw [if_pos hlen] at h
    cases h
    exact hs
  · rw [if_neg hlen] at h
    exact inv_gridLoop_ok embedJpg columns _ _ gap h0 hc images 0 [] s s' h hs

theorem inv_drawActivity_ok (widthAt widthAtBold : String → ℚ → ℚ)
    (embedJpg : Img → Option Dims) (s : LayoutState) (a : Activity Img)
    (index : ℕ) (s' : LayoutState)
    (h : drawActivity widthAt widthAtBold embedJpg s a index = .ok s') :
    cursorInv s' := by
  unfold drawActivity at h
  try dsimp only at h
  obtain ⟨sg, hgrid, hfin⟩ := except_bind_ok _ _ _ h
  have hs' : s' = drawLine sg := by simpa using hfin.symm
  rw [hs']
  apply inv_drawLine_weak
  by_cases hph : a.photos.length > 0
  · rw [if_pos hph] at hgrid
    try dsimp only at hgrid
    by_cases hc2 : a.photos.length ≤ 2
    · rw [if_pos hc2] at hgrid
      refine ub_drawImageGrid_ok embedJpg _ _ 1 10 sg ?_ hgrid ?_
      · norm_num [contentWidth, PAGE_WIDTH, margins, IMAGE_CONFIG_width,
          IMAGE_CONFIG_height]
      · refine ub_drop _ _ (by norm_num [fonts_body]) ?_
        refine ub_recordText _ ?_
        refine ub_addSpace _ _ (by norm_num) ?_
        refine ub_drawWrappedText _ _ _ _ _ _ _ (by norm_num [fonts_body]) ?_
        refine ub_drop _ _ (by norm_num [fonts_body]) ?_
        refine ub_recordText _ ?_
        refine ub_addSpace _ _ (by norm_num) ?_
        refine ub_drawWrappedText _ _ _ _ _ _ _ (by norm_num [fonts_body]) ?_
        refine ub_drop _ _ (by norm_num [fonts_body]) ?_
        refine ub_recordText _ ?_
        refine ub_addSpace _ _ (by norm_num) ?_
        refine ub_extraFields _ _ _ _ _ _ _ _ _ _ _ _ ?_
        refine ub_drawField _ _ _ _ _ ?_
        refine ub_drawField _ _ _ _ _ ?_
        refine ub_drawField _ _ _ _ _ ?_
        refine ub_drawHeading _ _ _ ?_
        exact ub_addNewPage s
    · rw [if_neg hc2] at hgrid
      refine ub_drawImageGrid_ok embedJpg _ _ 2 10 sg ?_ hgrid ?_
      · norm_num [contentWidth, PAGE_WIDTH, margins, IMAGE_CONFIG_width,
          IMAGE_CONFIG_height]
      · refine ub_drop _ _ (by norm_num [fonts_body]) ?_
        refine ub_recordText _ ?_
        refine ub_addSpace _ _ (by norm_num) ?_
        refine ub_drawWrappedText _ _ _ _ _ _ _ (by norm_num [fonts_body]) ?_
        refine ub_drop _ _ (by norm_num [fonts_body]) ?_
        refine ub_recordText _ ?_
        refine ub_addSpace _ _ (by norm_num) ?_
        refine ub_drawWrappedText _ _ _ _ _ _ _ (by norm_num [fonts_body]) ?_
        refine ub_drop _ _ (by norm_num [fonts_body]) ?_
        refine ub_recordText _ ?_
        refine ub_addSpace _ _ (by norm_num) ?_
        refine ub_extraFields _ _ _ _ _ _ _ _ _ _ _ _ ?_
        refine ub_drawField _ _ _ _ _ ?_
        refine ub_drawField _ _ _ _ _ ?_
        refine ub_drawField _ _ _ _ _ ?_
        refine ub_drawHeading _ _ _ ?_
        exact ub_addNewPage s
  · rw [if_neg hph] at hgrid
    have hsg := (Except.ok.injEq _ _).mp hgrid
    rw [← hsg]
    refine ub_addSpace _ _ (by norm_num) ?_
    refine ub_drawWrappedText _ _ _ _ _ _ _ (by norm_num [fonts_body]) ?_
    refine ub_drop _ _ (by norm_num [fonts_body]) ?_
    refine ub_recordText _ ?_
    refine ub_addSpace _ _ (by norm_num) ?_
    refine ub_drawWrappedText _ _ _ _ _ _ _ (by norm_num [fonts_body]) ?_
    refine ub_drop _ _ (by norm_num [fonts_body]) ?_
    refine ub_recordText _ ?_
    refine ub_addSpace _ _ (by norm_num) ?_
    refine ub_extraFields _ _ _ _ _ _ _ _ _ _ _ _ ?_
    refine ub_drawField _ _ _ _ _ ?_
    refine ub_drawField _ _ _ _ _ ?_
    refine ub_drawField _ _ _ _ _ ?_
    refine ub_drawHeading _ _ _ ?_
    exact ub_addNewPage s

theorem inv_runOp (widthAt widthAtBold : String → ℚ → ℚ)
    (embedJpg : Img → Option Dims) (s s1 : LayoutState) (op : DrawOp Img)
    (hop : runOp widthAt widthAtBold embedJpg s op = .ok s1)
    (hs : cursorInv s) (hok : opOK embedJpg op) : cursorInv s1 := by
  cases op with
  | heading text level =>
    simp only [runOp] at hop
    cases hop
    exact inv_drawHeading s text level hs
  | field label value =>
    simp only [runOp] at hop
    cases hop
    exact inv_drawField widthAt widthAtBold s label value hs
  | wrappedText text x maxWidth fontSize lineHeight =>
    simp only [runOp] at hop
    cases hop
    unfold opOK at hok
    try dsimp only at hok
    exact inv_drawWrappedText widthAt s text x maxWidth fontSize lineHeight
      hok.1 hok.2 hs
  | image img maxWidth maxHeight =>
    simp only [runOp] at hop
    cases hdi : drawImage embedJpg s img maxWidth maxHeight with
    | error e => rw [hdi] at hop; cases hop
    | ok p =>
      rw [hdi] at hop
      cases p with
      | mk sa used =>
        try dsimp only at hop
        have hpq : sa = s1 := by simpa using hop
        subst hpq
        exact inv_drawImage_ok embedJpg s img maxWidth maxHeight sa used hdi hs hok
  | imageGrid images columns gap =>
    simp only [runOp] at hop
    unfold opOK at hok
    try dsimp only at hok
    exact inv_drawImageGrid_ok embedJpg s images columns gap s1 hok.1 hok.2 hop hs
  | hline =>
    simp only [runOp] at hop
    cases hop
    exact inv_drawLine_weak s hs.2
  | activity a index =>
    simp only [runOp] at hop
    exact inv_drawActivity_ok widthAt widthAtBold embedJpg s a index s1 hop

theorem runOps_inv (widthAt widthAtBold : String → ℚ → ℚ)
    (embedJpg : Img → Option Dims) :
    ∀ (ops : List (DrawOp Img)) (s s' : LayoutState), cursorInv s →
      (∀ op ∈ ops, opOK embedJpg op) →
      runOps widthAt widthAtBold embedJpg s ops = .ok s' → cursorInv s' := by
  intro ops
  induction ops with
  | nil =>
    intro s s' hs _ h
    simp only [runOps] at h
    cases h
    exact hs
  | cons op rest ih =>
    intro s s' hs hok h
    simp only [runOps] at h
    cases hop : runOp widthAt widthAtBold embedJpg s op with
    | error e => rw [hop] at h; cases h
    | ok s1 =>
      rw [hop] at h
      exact ih s1 s'
        (inv_runOp widthAt widthAtBold embedJpg s s1 op hop hs
          (hok op (List.mem_cons_self op rest)))
        (fun o ho => hok o (List.mem_cons_of_mem op ho)) h

/-- C1 counterexample: `addSpace` is a draw operation of the engine
(spec section 4.1) and is cited by the claim itself, yet a single
`addSpace 700` issued right after `startDocument` moves the cursor to
42 — below `marginBottom = 50` — and inserts no page first. -/
theorem claim1_counterexample :
    (addSpace initState 700).numPages = initState.numPages ∧
    ¬ (margins.bottom ≤ (addSpace initState 700).currentY) := by
  constructor
  · rfl
  · norm_num [addSpace, initState, addNewPage, margins, PAGE_HEIGHT]

/-- C1 as amended: for every sequence of the page-break-aware draw
operations (heading, field, wrapped text, image, image grid, rule,
activity) issued after `startDocument`, with each operation's computed
heights fitting the content rectangle (`opOK`), the cursor after any
completed run satisfies
`marginBottom ≤ cursor ≤ pageHeight - marginTop` — a new page is
inserted rather than the lower bound being crossed.  The unchecked
cursor moves (`addSpace`, and the trailing advances of `drawTitle` and
`drawDistributionTable`) are excluded: they can cross the lower bound
(see the counterexample). -/
theorem claim1_cursorInvariant {Img : Type}
    (widthAt widthAtBold : String → ℚ → ℚ) (embedJpg : Img → Option Dims)
    (ops : List (DrawOp Img)) (s' : LayoutState)
    (hok : ∀ op ∈ ops, opOK embedJpg op)
    (h : runOps widthAt widthAtBold embedJpg initState ops = .ok s') :
    margins.bottom ≤ s'.currentY ∧ s'.currentY ≤ PAGE_HEIGHT - margins.top :=
  runOps_inv widthAt widthAtBold embedJpg ops initState s'
    (by refine ⟨?_, ?_⟩ <;> norm_num [initState, addNewPage, margins, PAGE_HEIGHT])
    hok h

/-- Witness for the amended C1: a single rule drawn from the fresh
document leaves the cursor at 727, inside the bounds. -/
theorem claim1_cursorInvariant_witness :
    (∀ op ∈ ([DrawOp.hline] : List (DrawOp Unit)),
      opOK (fun _ : Unit => some (⟨2, 1⟩ : Dims)) op) ∧
    (runOps (fun _ _ => (0 : ℚ)) (fun _ _ => (0 : ℚ))
      (fun _ : Unit => some (⟨2, 1⟩ : Dims)) initState [DrawOp.hline] =
      .ok ⟨1, 727, [DrawCmd.line 0]⟩) ∧
    (margins.bottom ≤ (⟨1, 727, [DrawCmd.line 0]⟩ : LayoutState).currentY ∧
      (⟨1, 727, [DrawCmd.line 0]⟩ : LayoutState).currentY ≤
        PAGE_HEIGHT - margins.top) := by
  have hok : ∀ op ∈ ([DrawOp.hline] : List (DrawOp Unit)),
      opOK (fun _ : Unit => some (⟨2, 1⟩ : Dims)) op := by
    intro op hop
    rw [List.mem_singleton] at hop
    subst hop
    trivial
  have hrun : runOps (fun _ _ => (0 : ℚ)) (fun _ _ => (0 : ℚ))
      (fun _ : Unit => some (⟨2, 1⟩ : Dims)) initState [DrawOp.hline] =
      .ok ⟨1, 727, [DrawCmd.line 0]⟩ := by
    norm_num +decide [runOps, runOp, drawLine, addPageIfNeeded, addNewPage,
      recordLine, initState, margins, PAGE_HEIGHT]
  exact ⟨hok, hrun,
    claim1_cursorInvariant (fun _ _ => (0 : ℚ)) (fun _ _ => (0 : ℚ))
      (fun _ : Unit => some (⟨2, 1⟩ : Dims)) [DrawOp.hline] _ hok hrun⟩

end PDF
